import Mathlib

/-!
Verification of the `simple-liquid-glass` library core against its design
specification.  The TypeScript source is shallowly embedded: CSS color
strings are `List Char` / `String`, JS numbers appearing in exact-arithmetic
positions are `ℚ` (or `ℝ` where the source uses `Math.sqrt` / `Math.pow`),
and the regex-based matchers of the source are embedded as deterministic
functions that recognise exactly the same languages on the inputs at issue.
-/

namespace LiquidGlass

/-! ## Character and list utilities -/

/-- JS `\s` / `trim` whitespace, restricted to the ASCII whitespace that can
occur in CSS color strings. -/
def isWSCh (c : Char) : Bool :=
  c = ' ' || c = '\t' || c = '\n' || c = '\r' || c = '\x0b' || c = '\x0c'

/-- Regex class `\d`. -/
def isDigitCh (c : Char) : Bool := '0' ≤ c && c ≤ '9'

/-- Regex class `[0-9a-f]` under the `/i` flag. -/
def isHexCh (c : Char) : Bool :=
  isDigitCh c || ('a' ≤ c && c ≤ 'f') || ('A' ≤ c && c ≤ 'F')

/-- Numeric value of a decimal digit character (JS `charCode - 48`). -/
def dval (c : Char) : ℕ := c.toNat - 48

/-- Numeric value of a hexadecimal digit character. -/
def hval (c : Char) : ℕ :=
  if isDigitCh c then c.toNat - 48
  else if 'a' ≤ c && c ≤ 'f' then c.toNat - 87
  else c.toNat - 55

/-- `parseInt(digits, 10)` on a digit string. -/
def digitsToNat (l : List Char) : ℕ := l.foldl (fun n c => 10 * n + dval c) 0

/-- `parseInt(digits, 16)` on a hex-digit string. -/
def hexToNat (l : List Char) : ℕ := l.foldl (fun n c => 16 * n + hval c) 0

/-- Skip the regex `\s*`. -/
def skipWS (l : List Char) : List Char := l.dropWhile isWSCh

/-- JS `String.prototype.trim` on a char list. -/
def trimChars (l : List Char) : List Char :=
  ((l.dropWhile isWSCh).reverse.dropWhile isWSCh).reverse

/-- Case-insensitive literal prefix match (the pattern is given lowercase,
mirroring a `/.../i` regex literal); returns the remaining input. -/
def stripPrefixCI : List Char → List Char → Option (List Char)
  | [], l => some l
  | _ :: _, [] => none
  | p :: ps, c :: cs => if c.toLower = p then stripPrefixCI ps cs else none

/-- Require one exact character. -/
def expectCh (c : Char) : List Char → Option (List Char)
  | [] => none
  | x :: t => if x = c then some t else none

/-- Regex `(\d+)` together with the rest of the input. -/
def parseNatTok (l : List Char) : Option (ℕ × List Char) :=
  let ds := l.takeWhile isDigitCh
  if ds.isEmpty then none else some (digitsToNat ds, l.dropWhile isDigitCh)

/-- Regex `(\d*\.?\d+)` (a JS decimal literal, value via `parseFloat`)
together with the rest of the input. -/
def parseDecTok (l : List Char) : Option (ℚ × List Char) :=
  match l.dropWhile isDigitCh with
  | '.' :: r2 =>
    if (r2.takeWhile isDigitCh).isEmpty then none
    else some ((digitsToNat (l.takeWhile isDigitCh) : ℚ) +
      (digitsToNat (r2.takeWhile isDigitCh) : ℚ) / 10 ^ (r2.takeWhile isDigitCh).length,
      r2.dropWhile isDigitCh)
  | _ =>
    if (l.takeWhile isDigitCh).isEmpty then none
    else some ((digitsToNat (l.takeWhile isDigitCh) : ℚ), l.dropWhile isDigitCh)

/-- Split `l` at its last occurrence of `sep`: `some (before, after)`. -/
def splitAtLastSep (sep : Char) (l : List Char) : Option (List Char × List Char) :=
  match l.reverse.dropWhile (fun c => c ≠ sep) with
  | [] => none
  | _ :: before =>
    some (before.reverse, (l.reverse.takeWhile (fun c => c ≠ sep)).reverse)

/-- JS `haystack.includes(needle)` on char lists. -/
def hasSubstr (pat : List Char) : List Char → Bool
  | [] => pat.isEmpty
  | c :: t => pat.isPrefixOf (c :: t) || hasSubstr pat t

/-- First-occurrence substring replacement (JS `str.replace(plainString, repl)`). -/
def replaceFirst (pat repl : List Char) : List Char → List Char
  | [] => []
  | c :: t =>
    if pat.isPrefixOf (c :: t) then repl ++ (c :: t).drop pat.length
    else c :: replaceFirst pat repl t

/-- Fuelled digit renderer (structural recursion so the kernel can
evaluate it; `natDigits` below supplies enough fuel). -/
def natDigitsAux : ℕ → ℕ → List Char
  | 0, _ => []
  | fuel + 1, n =>
    if n < 10 then [Char.ofNat (48 + n)]
    else natDigitsAux fuel (n / 10) ++ [Char.ofNat (48 + n % 10)]

/-- Decimal digit characters of a natural number (how JS stringifies the
integers produced by `parseInt` in this code). -/
def natDigits (n : ℕ) : List Char := natDigitsAux (n + 1) n

/-! ## Color model utility (src/unnamed/part_001, lines 33–170 =
src/unnamed/part_002, lines 120–257)

Each JS regex of the source is embedded as a deterministic matcher that
accepts the same full-match language (the lazy/greedy groups of these
regexes are deterministic on full matches, as noted at each definition). -/

def rgbaPfx : List Char := ['r', 'g', 'b', 'a', '(']

def hslaPfx : List Char := ['h', 's', 'l', 'a', '(']

def hslPfx : List Char := ['h', 's', 'l', '(']

def rgbPfx : List Char := ['r', 'g', 'b', '(']

/-- `/^rgba\(\s*\d+\s*,\s*\d+\s*,\s*\d+\s*,\s*(\d*\.?\d+)\s*\)$/i`,
returning the alpha capture. -/
def rgbaAlphaMatch (l : List Char) : Option ℚ := do
  let r1 ← stripPrefixCI rgbaPfx l
  let (_, r2) ← parseNatTok (skipWS r1)
  let r3 ← expectCh ',' (skipWS r2)
  let (_, r4) ← parseNatTok (skipWS r3)
  let r5 ← expectCh ',' (skipWS r4)
  let (_, r6) ← parseNatTok (skipWS r5)
  let r7 ← expectCh ',' (skipWS r6)
  let (a, r8) ← parseDecTok (skipWS r7)
  let r9 ← expectCh ')' (skipWS r8)
  if r9.isEmpty then some a else none

/-- The `\s*(\d*\.?\d+)\s*` tail shared by the `hsla` and `hsl .../...`
regexes, applied to the segment between the last separator and the final
`)`. -/
def tailAlphaMatch (l : List Char) : Option ℚ := do
  let (a, r) ← parseDecTok (skipWS l)
  if (skipWS r).isEmpty then some a else none

/-- `/^hsla\(.*?,\s*(\d*\.?\d+)\s*\)$/i`: since neither `\s*` nor the
decimal capture can contain a comma, the lazy `.*?` succeeds exactly when
the segment after the *last* comma matches the alpha tail. -/
def hslaAlphaMatch (l : List Char) : Option ℚ := do
  let r1 ← stripPrefixCI hslaPfx l
  match r1.reverse with
  | ')' :: revMid =>
    let (_, after) ← splitAtLastSep ',' revMid.reverse
    tailAlphaMatch after
  | _ => none

/-- `/^hsl\(.*?\/\s*(\d*\.?\d+)\s*\)$/i`, same shape with `/` as the
separator. -/
def hslSlashAlphaMatch (l : List Char) : Option ℚ := do
  let r1 ← stripPrefixCI hslPfx l
  match r1.reverse with
  | ')' :: revMid =>
    let (_, after) ← splitAtLastSep '/' revMid.reverse
    tailAlphaMatch after
  | _ => none

/-- `/^#([0-9a-f]{4})$/i` with the alpha nibble expanded to 8 bits and
divided by 255. -/
def hex4AlphaMatch : List Char → Option ℚ
  | ['#', c1, c2, c3, c4] =>
    if isHexCh c1 && isHexCh c2 && isHexCh c3 && isHexCh c4 then
      some ((hexToNat [c4, c4] : ℚ) / 255)
    else none
  | _ => none

/-- `/^#([0-9a-f]{8})$/i` with the trailing alpha byte divided by 255. -/
def hex8AlphaMatch : List Char → Option ℚ
  | ['#', c1, c2, c3, c4, c5, c6, c7, c8] =>
    if isHexCh c1 && isHexCh c2 && isHexCh c3 && isHexCh c4 &&
        isHexCh c5 && isHexCh c6 && isHexCh c7 && isHexCh c8 then
      some ((hexToNat [c7, c8] : ℚ) / 255)
    else none
  | _ => none

/-- `isSemiTransparentColor`: a falsy input is `false`; otherwise the
trimmed input is tried against the five alpha-carrying syntaxes in source
order, and a match returns `a > 0 && a < 1`. -/
def isSemiTransparentColorL (l : List Char) : Bool :=
  if l.isEmpty then false
  else
    match rgbaAlphaMatch (trimChars l) with
    | some a => decide (0 < a ∧ a < 1)
    | none =>
      match hslaAlphaMatch (trimChars l) with
      | some a => decide (0 < a ∧ a < 1)
      | none =>
        match hslSlashAlphaMatch (trimChars l) with
        | some a => decide (0 < a ∧ a < 1)
        | none =>
          match hex4AlphaMatch (trimChars l) with
          | some a => decide (0 < a ∧ a < 1)
          | none =>
            match hex8AlphaMatch (trimChars l) with
            | some a => decide (0 < a ∧ a < 1)
            | none => false

/-- String-level wrapper for `isSemiTransparentColor`. -/
def isSemiTransparentColor (s : String) : Bool := isSemiTransparentColorL s.data

/-- A JS number as passed to the `alpha` parameters, kept as the decimal
literal the caller wrote (`ip.fp`, with `fp = []` for an integer literal);
JS renders such a value back exactly as this literal (`0.3` → `"0.3"`). -/
structure JSNum where
  ip : ℕ
  fp : List (Fin 10)
deriving DecidableEq

/-- Decimal digit character. -/
def digitCharOf (d : Fin 10) : Char := Char.ofNat (48 + d.val)

/-- Lowercase hexadecimal digit character. -/
def hexCharOf (d : Fin 16) : Char :=
  Char.ofNat (if d.val < 10 then 48 + d.val else 87 + d.val)

/-- The string JS interpolates for this number in a template literal. -/
def JSNum.render (a : JSNum) : List Char :=
  natDigits a.ip ++ (if a.fp.isEmpty then [] else '.' :: a.fp.map digitCharOf)

/-- The rational value of the number. -/
def JSNum.val (a : JSNum) : ℚ :=
  (a.ip : ℚ) + (digitsToNat (a.fp.map digitCharOf) : ℚ) / 10 ^ a.fp.length

/-- `/^#([0-9a-f]{3})$/i` with each nibble expanded (`x` → `xx`). -/
def hex3Triple : List Char → Option (ℕ × ℕ × ℕ)
  | ['#', c1, c2, c3] =>
    if isHexCh c1 && isHexCh c2 && isHexCh c3 then
      some (hexToNat [c1, c1], hexToNat [c2, c2], hexToNat [c3, c3])
    else none
  | _ => none

/-- `/^#([0-9a-f]{6})$/i`. -/
def hex6Triple : List Char → Option (ℕ × ℕ × ℕ)
  | ['#', c1, c2, c3, c4, c5, c6] =>
    if isHexCh c1 && isHexCh c2 && isHexCh c3 && isHexCh c4 &&
        isHexCh c5 && isHexCh c6 then
      some (hexToNat [c1, c2], hexToNat [c3, c4], hexToNat [c5, c6])
    else none
  | _ => none

/-- `/^rgb\(\s*(\d+)\s*,\s*(\d+)\s*,\s*(\d+)\s*\)$/i`. -/
def rgbTriple (l : List Char) : Option (ℕ × ℕ × ℕ) := do
  let r1 ← stripPrefixCI rgbPfx l
  let (rr, r2) ← parseNatTok (skipWS r1)
  let r3 ← expectCh ',' (skipWS r2)
  let (gg, r4) ← parseNatTok (skipWS r3)
  let r5 ← expectCh ',' (skipWS r4)
  let (bb, r6) ← parseNatTok (skipWS r5)
  let r7 ← expectCh ')' (skipWS r6)
  if r7.isEmpty then some (rr, gg, bb) else none

/-- `/^hsl\(\s*([^,]+)\s*,\s*([^,]+)\s*,\s*([^)]+)\s*\)$/i`, yielding the
three captures after the source's `.trim()`: equivalently, the segments
before the first comma, between the commas, and before the final `)` (the
last segment may not contain `)`), each required nonempty and then
trimmed. -/
def hslTriple (l : List Char) : Option (List Char × List Char × List Char) := do
  let r1 ← stripPrefixCI hslPfx l
  let seg1 := r1.takeWhile (· ≠ ',')
  match r1.dropWhile (· ≠ ',') with
  | ',' :: r2 =>
    let seg2 := r2.takeWhile (· ≠ ',')
    match r2.dropWhile (· ≠ ',') with
    | ',' :: r3 =>
      match r3.reverse with
      | ')' :: revBody =>
        let body := revBody.reverse
        if seg1.isEmpty || seg2.isEmpty || body.isEmpty || body.contains ')' then
          none
        else some (trimChars seg1, trimChars seg2, trimChars body)
      | _ => none
    | _ => none
  | _ => none

/-- The template literal `rgba(${r}, ${g}, ${b}, ${alpha})`. -/
def rgbaOutChars (r g b : ℕ) (al : JSNum) : List Char :=
  'r' :: 'g' :: 'b' :: 'a' :: '(' ::
    (natDigits r ++ ',' :: ' ' ::
      (natDigits g ++ ',' :: ' ' ::
        (natDigits b ++ ',' :: ' ' :: (al.render ++ [')']))))

/-- The template literal `hsla(${h}, ${s}, ${l}, ${alpha})`. -/
def hslaOutChars (h s l : List Char) (al : JSNum) : List Char :=
  'h' :: 's' :: 'l' :: 'a' :: '(' ::
    (h ++ ',' :: ' ' ::
      (s ++ ',' :: ' ' ::
        (l ++ ',' :: ' ' :: (al.render ++ [')']))))

/-- `addTransparencyToColor`: trim, then try `#rgb`, `#rrggbb`, `rgb(...)`
and `hsl(...)` in source order; unparsable input is returned trimmed. -/
def addTransparencyToColorL (color : List Char) (al : JSNum) : List Char :=
  let trimmed := trimChars color
  match hex3Triple trimmed with
  | some (r, g, b) => rgbaOutChars r g b al
  | none =>
    match hex6Triple trimmed with
    | some (r, g, b) => rgbaOutChars r g b al
    | none =>
      match rgbTriple trimmed with
      | some (r, g, b) => rgbaOutChars r g b al
      | none =>
        match hslTriple trimmed with
        | some (h, s, l) => hslaOutChars h s l al
        | none => trimmed

/-- String-level wrapper for `addTransparencyToColor`. -/
def addTransparencyToColor (color : String) (al : JSNum) : String :=
  ⟨addTransparencyToColorL color.data al⟩

/-- The gradient-function names of the gradient regex, in alternation
order. -/
def gradientNames : List String :=
  ["linear-gradient", "radial-gradient", "conic-gradient",
   "repeating-linear-gradient", "repeating-radial-gradient",
   "repeating-conic-gradient"]

/-- `/^(linear-gradient|...)\s*\(/i`: the matched group-1 text (original
case preserved, as JS `match[1]` does). -/
def gradientNameMatch (l : List Char) : Option (List Char) :=
  match gradientNames.find? (fun n =>
      match stripPrefixCI n.data l with
      | some rest =>
        match skipWS rest with
        | '(' :: _ => true
        | _ => false
      | none => false) with
  | some n => some (l.take n.length)
  | none => none

/-- The source's top-level comma split: a character-by-character loop
tracking nested parenthesis depth, pushing the trimmed current chunk at
each depth-0 comma (`cur` is accumulated in reverse). -/
def splitTopLevel : List Char → List Char → ℤ → List (List Char)
  | [], cur, _ => [trimChars cur.reverse]
  | c :: rest, cur, depth =>
    if c = '(' then splitTopLevel rest (c :: cur) (depth + 1)
    else if c = ')' then splitTopLevel rest (c :: cur) (depth - 1)
    else if c = ',' ∧ depth = 0 then
      trimChars cur.reverse :: splitTopLevel rest [] depth
    else splitTopLevel rest (c :: cur) depth

/-- The `#[0-9a-f]{3,6}` alternative of the color-stop regex at one
position (greedy, at least 3 hex digits). -/
def hexTokenAt : List Char → Option (List Char)
  | '#' :: rest =>
    let hx := (rest.takeWhile isHexCh).take 6
    if 3 ≤ hx.length then some ('#' :: hx) else none
  | _ => none

/-- A `name([^)]+)` alternative of the color-stop regex at one position;
the matched text keeps the input's original casing. -/
def funcColorAt (name : List Char) (l : List Char) : Option (List Char) := do
  let rest ← stripPrefixCI name l
  let body := rest.takeWhile (· ≠ ')')
  match rest.dropWhile (· ≠ ')') with
  | ')' :: _ => if body.isEmpty then none else some (l.take name.length ++ body ++ [')'])
  | _ => none

/-- `/(#[0-9a-f]{3,6}|rgb\([^)]+\)|hsl\([^)]+\)|rgba\([^)]+\)|hsla\([^)]+\))/i`
at one position, trying alternatives in source order. -/
def colorTokenAt (l : List Char) : Option (List Char) :=
  (hexTokenAt l).orElse fun _ =>
  (funcColorAt rgbPfx l).orElse fun _ =>
  (funcColorAt hslPfx l).orElse fun _ =>
  (funcColorAt rgbaPfx l).orElse fun _ =>
  funcColorAt hslaPfx l

/-- Leftmost match of the color-stop regex (`RegExp.exec` semantics). -/
def findColorToken : List Char → Option (List Char)
  | [] => none
  | c :: t =>
    match colorTokenAt (c :: t) with
    | some tok => some tok
    | none => findColorToken t

/-- `addTransparencyToGradient`: recognise the gradient name, split its
argument list on top-level commas, rewrite the first color token of each
part via `addTransparencyToColor` (JS `String.replace` on the matched
text), and reassemble joined by `", "`. -/
def addTransparencyToGradientL (gradient : List Char) (al : JSNum) : List Char :=
  match gradientNameMatch gradient with
  | none => gradient
  | some name =>
    let content := (gradient.drop (name.length + 1)).dropLast
    let parts := splitTopLevel content [] 0
    let processed := parts.map fun part =>
      match findColorToken part with
      | some color => replaceFirst color (addTransparencyToColorL color al) part
      | none => part
    name ++ '(' :: (List.intercalate [',', ' '] processed ++ [')'])

/-- String-level wrapper for `addTransparencyToGradient`. -/
def addTransparencyToGradient (g : String) (al : JSNum) : String :=
  ⟨addTransparencyToGradientL g.data al⟩

/-- `processBackground`: falsy input → `undefined`; already-semi-transparent
values pass through; values containing `"gradient"` go through the gradient
rewrite; then values containing `"url("` pass through; everything else is
treated as a solid color. -/
def processBackground (background : String) (al : JSNum) : Option String :=
  if background = "" then none
  else if isSemiTransparentColor background then some background
  else if hasSubstr "gradient".data background.data then
    some (addTransparencyToGradient background al)
  else if hasSubstr "url(".data background.data then some background
  else some (addTransparencyToColor background al)

/-! ## Ambient background sampler (src/unnamed/part_002, lines 448–512 and
538–551) -/

/-- A parsed computed background color. -/
structure Rgba where
  r : ℕ
  g : ℕ
  b : ℕ
  a : ℚ
deriving DecidableEq

/-- `/^rgba?\(\s*(\d+)\s*,\s*(\d+)\s*,\s*(\d+)(?:\s*,\s*(\d*\.?\d+))?\s*\)$/i`:
optional `a` in the name, optional fourth component defaulting to 1. -/
def rgbFuncMatch (l : List Char) : Option Rgba := do
  let r0 ← stripPrefixCI ['r', 'g', 'b'] l
  let r1 := match r0 with
            | c :: t => if c.toLower = 'a' then t else r0
            | [] => r0
  let r2 ← expectCh '(' r1
  let (rr, r3) ← parseNatTok (skipWS r2)
  let r4 ← expectCh ',' (skipWS r3)
  let (gg, r5) ← parseNatTok (skipWS r4)
  let r6 ← expectCh ',' (skipWS r5)
  let (bb, r7) ← parseNatTok (skipWS r6)
  match skipWS r7 with
  | ',' :: r8 => do
    let (a, r9) ← parseDecTok (skipWS r8)
    let r10 ← expectCh ')' (skipWS r9)
    if r10.isEmpty then some ⟨rr, gg, bb, a⟩ else none
  | r8 => do
    let r9 ← expectCh ')' r8
    if r9.isEmpty then some ⟨rr, gg, bb, 1⟩ else none

/-- `/^#([0-9a-f]{4})$/i` as a full color (nibbles expanded). -/
def hex4Rgba : List Char → Option Rgba
  | ['#', c1, c2, c3, c4] =>
    if isHexCh c1 && isHexCh c2 && isHexCh c3 && isHexCh c4 then
      some ⟨hexToNat [c1, c1], hexToNat [c2, c2], hexToNat [c3, c3],
        (hexToNat [c4, c4] : ℚ) / 255⟩
    else none
  | _ => none

/-- `/^#([0-9a-f]{8})$/i` as a full color. -/
def hex8Rgba : List Char → Option Rgba
  | ['#', c1, c2, c3, c4, c5, c6, c7, c8] =>
    if isHexCh c1 && isHexCh c2 && isHexCh c3 && isHexCh c4 &&
        isHexCh c5 && isHexCh c6 && isHexCh c7 && isHexCh c8 then
      some ⟨hexToNat [c1, c2], hexToNat [c3, c4], hexToNat [c5, c6],
        (hexToNat [c7, c8] : ℚ) / 255⟩
    else none
  | _ => none

/-- `parseCssColorToRgba`: trim, then `rgb`/`rgba` functional syntax, then
`#rgb`, `#rgba`, `#rrggbb`, `#rrggbbaa`, in source order. -/
def parseCssColorToRgba (color : String) : Option Rgba :=
  let c := trimChars color.data
  match rgbFuncMatch c with
  | some p => some p
  | none =>
    match hex3Triple c with
    | some (r, g, b) => some ⟨r, g, b, 1⟩
    | none =>
      match hex4Rgba c with
      | some p => some p
      | none =>
        match hex6Triple c with
        | some (r, g, b) => some ⟨r, g, b, 1⟩
        | none => hex8Rgba c

/-- The computed `backgroundColor` of one element, as read in the walk
(`bg ? parseCssColorToRgba(bg) : null`; the empty string is falsy). -/
def elementBgRgba (bg : String) : Option Rgba :=
  if bg = "" then none else parseCssColorToRgba bg

/-- `findNearestOpaqueBackground`: walk the ancestor chain (innermost
first), returning the first parsed color with `a > 0`; if the walk
exhausts the chain, fall back to the body's background color — parsed
*without* the `a > 0` check. -/
def findNearestOpaqueBackground : List String → String → Option Rgba
  | [], bodyBg => if bodyBg = "" then none else parseCssColorToRgba bodyBg
  | bg :: rest, bodyBg =>
    match elementBgRgba bg with
    | some p => if 0 < p.a then some p else findNearestOpaqueBackground rest bodyBg
    | none => findNearestOpaqueBackground rest bodyBg

/-- True when the walk skips this element (`!(parsed && parsed.a > 0)`). -/
def skipsElement (bg : String) : Bool :=
  match elementBgRgba bg with
  | some p => decide (p.a ≤ 0)
  | none => true

/-- `isRgbColorDark`'s per-channel sRGB gamma expansion
(`c <= 0.03928 ? c / 12.92 : ((c + 0.055) / 1.055) ** 2.4`). -/
noncomputable def srgbLinearize (v : ℕ) : ℝ :=
  let c : ℝ := v / 255
  if c ≤ 0.03928 then c / 12.92 else ((c + 0.055) / 1.055) ^ (2.4 : ℝ)

/-- The WCAG relative luminance computed by `isRgbColorDark`. -/
noncomputable def relativeLuminance (r g b : ℕ) : ℝ :=
  0.2126 * srgbLinearize r + 0.7152 * srgbLinearize g + 0.0722 * srgbLinearize b

/-- `isRgbColorDark`: luminance strictly below the 0.5 threshold. -/
def isRgbColorDark (r g b : ℕ) : Prop := relativeLuminance r g b < 0.5

noncomputable instance instDecIsRgbColorDark (r g b : ℕ) :
    Decidable (isRgbColorDark r g b) :=
  inferInstanceAs (Decidable (relativeLuminance r g b < 0.5))

/-- The auto-text-color `update` effect: sample the ancestor chain; a null
sample resolves to `textOnLight`, otherwise the sample's darkness picks
`textOnDark`/`textOnLight`. -/
noncomputable def resolveTextColor (chain : List String) (bodyBg : String)
    (textOnDark textOnLight : String) : String :=
  match findNearestOpaqueBackground chain bodyBg with
  | none => textOnLight
  | some p => if isRgbColorDark p.r p.g p.b then textOnDark else textOnLight

/-! ## Canonical input renderings for the color-syntax claims -/

/-- Digit characters of a digit list. -/
def decDigits (l : List (Fin 10)) : List Char := l.map digitCharOf

/-- An arbitrary decimal token of the `\d*\.?\d+` language: digits `ip`,
then (when `fp ≠ []`) a dot and digits `fp`. -/
def decTokChars (ip fp : List (Fin 10)) : List Char :=
  if fp.isEmpty then decDigits ip else decDigits ip ++ '.' :: decDigits fp

/-- Its `parseFloat` value. -/
def decTokVal (ip fp : List (Fin 10)) : ℚ :=
  (digitsToNat (decDigits ip) : ℚ) + (digitsToNat (decDigits fp) : ℚ) / 10 ^ fp.length

/-- `rgba(r,g,b,a)` with an arbitrary decimal alpha token (char-list form). -/
def rgbaInputL (r g b : ℕ) (ip fp : List (Fin 10)) : List Char :=
  'r' :: 'g' :: 'b' :: 'a' :: '(' ::
    (natDigits r ++ ',' ::
      (natDigits g ++ ',' ::
        (natDigits b ++ ',' :: (decTokChars ip fp ++ [')']))))

/-- `rgba(r,g,b,a)` with an arbitrary decimal alpha token. -/
def rgbaInput (r g b : ℕ) (ip fp : List (Fin 10)) : String :=
  ⟨rgbaInputL r g b ip fp⟩

/-- `hsla(body,a)` with an arbitrary `body` (the regex's `.*?`),
char-list form. -/
def hslaInputL (body : List Char) (ip fp : List (Fin 10)) : List Char :=
  'h' :: 's' :: 'l' :: 'a' :: '(' :: (body ++ ',' :: (decTokChars ip fp ++ [')']))

/-- `hsla(body,a)` with an arbitrary `body`. -/
def hslaInput (body : String) (ip fp : List (Fin 10)) : String :=
  ⟨hslaInputL body.data ip fp⟩

/-- `hsl(body/a)` with an arbitrary `body`, char-list form. -/
def hslSlashInputL (body : List Char) (ip fp : List (Fin 10)) : List Char :=
  'h' :: 's' :: 'l' :: '(' :: (body ++ '/' :: (decTokChars ip fp ++ [')']))

/-- `hsl(body/a)` with an arbitrary `body`. -/
def hslSlashInput (body : String) (ip fp : List (Fin 10)) : String :=
  ⟨hslSlashInputL body.data ip fp⟩

/-- `#RGBA` (lowercase hex). -/
def hex4Input (c1 c2 c3 c4 : Fin 16) : String :=
  ⟨['#', hexCharOf c1, hexCharOf c2, hexCharOf c3, hexCharOf c4]⟩

/-- `#RRGGBBAA` (lowercase hex). -/
def hex8Input (c1 c2 c3 c4 c5 c6 c7 c8 : Fin 16) : String :=
  ⟨['#', hexCharOf c1, hexCharOf c2, hexCharOf c3, hexCharOf c4,
    hexCharOf c5, hexCharOf c6, hexCharOf c7, hexCharOf c8]⟩

/-- `rgb(r,g,b)` — no alpha channel (char-list form). -/
def rgbInputL (r g b : ℕ) : List Char :=
  'r' :: 'g' :: 'b' :: '(' ::
    (natDigits r ++ ',' :: (natDigits g ++ ',' :: (natDigits b ++ [')'])))

/-- `rgb(r,g,b)` — no alpha channel. -/
def rgbInput (r g b : ℕ) : String := ⟨rgbInputL r g b⟩

/-- `#RGB` — no alpha channel. -/
def hex3Input (c1 c2 c3 : Fin 16) : String :=
  ⟨['#', hexCharOf c1, hexCharOf c2, hexCharOf c3]⟩

/-- `#RRGGBB` — no alpha channel. -/
def hex6Input (c1 c2 c3 c4 c5 c6 : Fin 16) : String :=
  ⟨['#', hexCharOf c1, hexCharOf c2, hexCharOf c3, hexCharOf c4,
    hexCharOf c5, hexCharOf c6]⟩

/-! ## Quality/Adaptation controller (src/unnamed/part_002, lines 40–58 and 380–401) -/

/-- The five concrete quality tiers (`'auto'` always resolves to one of these
via `detectDevicePreset`, which returns `low`/`mobile`/`medium`/`desktop`). -/
inductive QualityPreset where
  | low | mobile | medium | desktop | high
deriving DecidableEq

/-- `QualityOptions` from the source, with JS numbers as exact rationals. -/
structure QualityOptions where
  resolutionScale : ℚ
  scaleMultiplier : ℚ
  blurMultiplier : ℚ
  fpsCap : ℚ
deriving DecidableEq

/-- The `QUALITY_PRESETS` table. -/
def QUALITY_PRESETS : QualityPreset → QualityOptions
  | .low     => ⟨0.35, 0.75, 0.9, 45⟩
  | .mobile  => ⟨0.40, 0.85, 1.0, 55⟩
  | .medium  => ⟨0.50, 1.00, 1.0, 60⟩
  | .desktop => ⟨0.60, 1.00, 1.0, 60⟩
  | .high    => ⟨0.70, 1.10, 1.0, 60⟩

/-- `Partial<QualityOptions>`: the `qualityOverrides` prop, each field
optional (`undefined` = `none`). -/
structure QualityOverrides where
  resolutionScale : Option ℚ := none
  scaleMultiplier : Option ℚ := none
  blurMultiplier : Option ℚ := none
  fpsCap : Option ℚ := none

/-- The `merged` quality options computed in the `useState` initialiser and
repeated in the recompute effect: each field is
`Math.min(hi, Math.max(lo, override ?? base))`. -/
def resolveQualityOptions (p : QualityPreset) (o : QualityOverrides) : QualityOptions :=
  let base := QUALITY_PRESETS p
  { resolutionScale := min 0.8 (max 0.3 (o.resolutionScale.getD base.resolutionScale))
    scaleMultiplier := min 1.2 (max 0.6 (o.scaleMultiplier.getD base.scaleMultiplier))
    blurMultiplier := min 1.2 (max 0.6 (o.blurMultiplier.getD base.blurMultiplier))
    fpsCap := min 60 (max 30 (o.fpsCap.getD base.fpsCap)) }

/-! ## Radius clamping (src/unnamed/part_002, lines 583 and 596) -/

/-- `effectiveRadiusPx = Math.min(config.radius, dimensions.width / 2,
dimensions.height / 2)` — the CSS-visible corner radius. -/
def effectiveRadiusPx (radius w h : ℚ) : ℚ := min radius (min (w / 2) (h / 2))

/-- `effectiveRadius = Math.min(config.radius, width / 2, height / 2) / 2` —
the `rx` attribute written into the generated displacement-map SVG (expressed
in the map's own scaled coordinate system). -/
def displacementMapRadius (radius w h : ℚ) : ℚ :=
  min radius (min (w / 2) (h / 2)) / 2

/-! ## Cross-instance group registry (src/unnamed/part_002, lines 60–90)

`__LG_GROUPS` is a module-level `Map<string, {count, listeners}>`.  The
listener callbacks are modelled by numeric ids; the JS `Set` of callbacks is
a duplicate-free list.  `count` is a JS number kept integral by the code
(`++` and `Math.max(0, count - 1)`), modelled as `ℤ` so that the
non-negativity claim is a real statement about `Math.max`. -/

/-- One entry of `__LG_GROUPS`. -/
structure Group where
  count : ℤ
  listeners : List ℕ
deriving DecidableEq

/-- The registry: group name → entry (absent = not in the `Map`). -/
def Registry := String → Option Group

/-- The initial, empty `__LG_GROUPS` map. -/
def emptyRegistry : Registry := fun _ => none

/-- `registerInstance(group, cb)`: create the entry on demand, increment
`count`, add `cb` to the listener set (a `Set`, hence no duplicate). -/
def registerInstance (r : Registry) (g : String) (cb : ℕ) : Registry :=
  let grp := (r g).getD ⟨0, []⟩
  let ls := if grp.listeners.contains cb then grp.listeners else cb :: grp.listeners
  fun x => if x = g then some ⟨grp.count + 1, ls⟩ else r x

/-- The unregister closure returned by `registerInstance`: if the group is
still present, `count = Math.max(0, count - 1)` and `cb` is removed. -/
def unregisterInstance (r : Registry) (g : String) (cb : ℕ) : Registry :=
  match r g with
  | none => r
  | some grp =>
    fun x => if x = g then some ⟨max 0 (grp.count - 1), grp.listeners.filter (· ≠ cb)⟩
             else r x

/-- Invoke the unregister closures for a list of callbacks in order. -/
def unregisterMany (r : Registry) (g : String) : List ℕ → Registry
  | [] => r
  | cb :: rest => unregisterMany (unregisterInstance r g cb) g rest

/-- The multiplier `recomputeAndNotify` delivers to every listener of a group
whose entry has the given `count`:
`Math.max(0.7, 1 / Math.sqrt(Math.max(1, count)))`. -/
noncomputable def notifiedMultiplier (count : ℤ) : ℝ :=
  max 0.7 (1 / Real.sqrt ((max 1 count : ℤ) : ℝ))

/-- The value `recomputeAndNotify(group)` broadcasts (it returns without
notifying when the group is absent from the map). -/
noncomputable def broadcastMultiplier (r : Registry) (g : String) : Option ℝ :=
  (r g).map (fun grp => notifiedMultiplier grp.count)

/-- A register-or-unregister event, for reasoning about arbitrary interleaved
call sequences (including repeated invocations of the same closure). -/
inductive RegistryOp where
  | register (g : String) (cb : ℕ)
  | unregister (g : String) (cb : ℕ)

/-- Apply one event. -/
def applyOp (r : Registry) : RegistryOp → Registry
  | .register g cb => registerInstance r g cb
  | .unregister g cb => unregisterInstance r g cb

/-- Apply a sequence of events, oldest first. -/
def applyOps (r : Registry) (ops : List RegistryOp) : Registry :=
  ops.foldl applyOp r

end LiquidGlass

namespace LiquidGlass

/-! ## Character-class and list lemmas -/

theorem digitCharOf_facts :
    ∀ d : Fin 10, isDigitCh (digitCharOf d) = true ∧ isWSCh (digitCharOf d) = false ∧
      digitCharOf d ≠ ',' ∧ digitCharOf d ≠ '/' ∧ digitCharOf d ≠ '.' ∧
      digitCharOf d ≠ ')' := by decide

theorem ws_not_digit {c : Char} (h : isWSCh c = true) : isDigitCh c = false := by
  unfold isWSCh at h
  simp only [Bool.or_eq_true, decide_eq_true_eq] at h
  rcases h with ((((h | h) | h) | h) | h) | h <;> subst h <;> decide

theorem digit_not_ws {c : Char} (h : isDigitCh c = true) : isWSCh c = false := by
  cases hw : isWSCh c with
  | false => rfl
  | true => rw [ws_not_digit hw] at h; exact absurd h (by simp)

theorem takeWhile_append_all {p : Char → Bool} {l1 l2 : List Char}
    (h1 : ∀ c ∈ l1, p c = true) (h2 : ∀ c ∈ l2.head?, p c = false) :
    (l1 ++ l2).takeWhile p = l1 := by
  induction l1 with
  | nil =>
    cases l2 with
    | nil => rfl
    | cons c t =>
      have := h2 c (by simp)
      simp [List.takeWhile_cons, this]
  | cons c t ih =>
    have hc := h1 c (by simp)
    simp only [List.cons_append, List.takeWhile_cons, hc, if_true]
    rw [ih (fun x hx => h1 x (by simp [hx]))]

theorem dropWhile_append_all {p : Char → Bool} {l1 l2 : List Char}
    (h1 : ∀ c ∈ l1, p c = true) (h2 : ∀ c ∈ l2.head?, p c = false) :
    (l1 ++ l2).dropWhile p = l2 := by
  induction l1 with
  | nil =>
    cases l2 with
    | nil => rfl
    | cons c t =>
      have := h2 c (by simp)
      simp [List.dropWhile_cons, this]
  | cons c t ih =>
    have hc := h1 c (by simp)
    simp only [List.cons_append, List.dropWhile_cons, hc, if_true]
    exact ih (fun x hx => h1 x (by simp [hx]))

theorem dropWhile_eq_self_of_head {p : Char → Bool} {l : List Char}
    (h : ∀ c ∈ l.head?, p c = false) : l.dropWhile p = l := by
  cases l with
  | nil => rfl
  | cons c t =>
    have := h c (by simp)
    simp [List.dropWhile_cons, this]

theorem skipWS_eq_self {l : List Char} (h : ∀ c ∈ l.head?, isWSCh c = false) :
    skipWS l = l :=
  dropWhile_eq_self_of_head h

theorem head?_dropWhile {p : Char → Bool} (l : List Char) :
    ∀ c ∈ (l.dropWhile p).head?, p c = false := by
  induction l with
  | nil => intro c hc; simp at hc
  | cons a t ih =>
    intro c hc
    by_cases ha : p a
    · rw [List.dropWhile_cons, if_pos ha] at hc
      exact ih c hc
    · rw [List.dropWhile_cons, if_neg ha] at hc
      simp only [List.head?_cons, Option.mem_def, Option.some.injEq] at hc
      subst hc
      exact Bool.eq_false_iff.mpr ha

theorem getLast?_dropWhile {p : Char → Bool} (l : List Char)
    (h : l.dropWhile p ≠ []) : (l.dropWhile p).getLast? = l.getLast? := by
  induction l with
  | nil => simp at h
  | cons a t ih =>
    by_cases ha : p a
    · rw [List.dropWhile_cons, if_pos ha] at h ⊢
      have ht : t ≠ [] := by
        intro he
        subst he
        simp at h
      have hcons : (a :: t).getLast? = t.getLast? := by
        cases t with
        | nil => exact absurd rfl ht
        | cons b u => exact List.getLast?_cons_cons
      rw [ih h, hcons]
    · rw [List.dropWhile_cons, if_neg ha]

theorem trimChars_eq_self {l : List Char}
    (h1 : ∀ c ∈ l.head?, isWSCh c = false)
    (h2 : ∀ c ∈ l.getLast?, isWSCh c = false) : trimChars l = l := by
  unfold trimChars
  rw [dropWhile_eq_self_of_head h1]
  rw [dropWhile_eq_self_of_head (by
    intro c hc
    rw [List.head?_reverse] at hc
    exact h2 c hc)]
  exact List.reverse_reverse l

theorem trimChars_head? (l : List Char) :
    ∀ c ∈ (trimChars l).head?, isWSCh c = false := by
  intro c hc
  unfold trimChars at hc
  rw [List.head?_reverse] at hc
  rcases hdw : (l.dropWhile isWSCh).reverse.dropWhile isWSCh with _ | ⟨a, t⟩
  · rw [hdw] at hc; simp at hc
  · rw [hdw] at hc
    rw [← hdw] at hc
    rw [getLast?_dropWhile _ (by rw [hdw]; simp)] at hc
    rw [List.getLast?_reverse] at hc
    exact head?_dropWhile l c hc

theorem trimChars_getLast? (l : List Char) :
    ∀ c ∈ (trimChars l).getLast?, isWSCh c = false := by
  intro c hc
  unfold trimChars at hc
  rw [List.getLast?_reverse] at hc
  exact head?_dropWhile _ c hc

theorem trimChars_idem (l : List Char) : trimChars (trimChars l) = trimChars l :=
  trimChars_eq_self (trimChars_head? l) (trimChars_getLast? l)

/-! ## Digit-string rendering and parsing roundtrips -/

theorem dval_ofNat_lt_ten (k : ℕ) (h : k < 10) :
    dval (Char.ofNat (48 + k)) = k := by
  interval_cases k <;> decide

theorem isDigitCh_ofNat_lt_ten (k : ℕ) (h : k < 10) :
    isDigitCh (Char.ofNat (48 + k)) = true := by
  interval_cases k <;> decide

theorem digitsToNat_concat (l : List Char) (c : Char) :
    digitsToNat (l ++ [c]) = 10 * digitsToNat l + dval c := by
  unfold digitsToNat
  rw [List.foldl_append]
  rfl

theorem natDigitsAux_spec :
    ∀ (fuel n : ℕ), n < fuel →
      natDigitsAux fuel n ≠ [] ∧ (∀ c ∈ natDigitsAux fuel n, isDigitCh c = true) ∧
        digitsToNat (natDigitsAux fuel n) = n := by
  intro fuel
  induction fuel with
  | zero => intro n h; omega
  | succ f ih =>
    intro n h
    rw [natDigitsAux]
    split
    case isTrue h10 =>
      refine ⟨by simp, ?_, ?_⟩
      · intro c hc
        simp only [List.mem_singleton] at hc
        subst hc
        exact isDigitCh_ofNat_lt_ten n h10
      · show 10 * 0 + dval (Char.ofNat (48 + n)) = n
        rw [dval_ofNat_lt_ten n h10]
        omega
    case isFalse h10 =>
      have hlt : n / 10 < f := by
        have h1 : n / 10 < n := Nat.div_lt_self (by omega) (by norm_num)
        omega
      obtain ⟨_, hdig, hval⟩ := ih (n / 10) hlt
      have hm : n % 10 < 10 := Nat.mod_lt n (by norm_num)
      refine ⟨by simp, ?_, ?_⟩
      · intro c hc
        rcases List.mem_append.mp hc with hc | hc
        · exact hdig c hc
        · simp only [List.mem_singleton] at hc
          subst hc
          exact isDigitCh_ofNat_lt_ten _ hm
      · rw [digitsToNat_concat, hval, dval_ofNat_lt_ten _ hm]
        omega

theorem natDigits_spec (n : ℕ) :
    natDigits n ≠ [] ∧ (∀ c ∈ natDigits n, isDigitCh c = true) ∧
      digitsToNat (natDigits n) = n :=
  natDigitsAux_spec (n + 1) n (Nat.lt_succ_self n)

theorem natDigits_ne_nil (n : ℕ) : natDigits n ≠ [] := (natDigits_spec n).1

theorem natDigits_digits (n : ℕ) : ∀ c ∈ natDigits n, isDigitCh c = true :=
  (natDigits_spec n).2.1

theorem digitsToNat_natDigits (n : ℕ) : digitsToNat (natDigits n) = n :=
  (natDigits_spec n).2.2

theorem natDigits_not_ws (n : ℕ) : ∀ c ∈ (natDigits n).head?, isWSCh c = false := by
  intro c hc
  have hcons : natDigits n = c :: (natDigits n).tail := List.eq_cons_of_mem_head? hc
  exact digit_not_ws (natDigits_digits n c (by rw [hcons]; exact List.mem_cons_self _ _))

theorem parseNatTok_natDigits (n : ℕ) (rest : List Char)
    (h : ∀ c ∈ rest.head?, isDigitCh c = false) :
    parseNatTok (natDigits n ++ rest) = some (n, rest) := by
  unfold parseNatTok
  rw [takeWhile_append_all (natDigits_digits n) h,
    dropWhile_append_all (natDigits_digits n) h]
  simp only [List.isEmpty_eq_true, natDigits_ne_nil n, if_false,
    digitsToNat_natDigits n]

theorem decDigits_digits (l : List (Fin 10)) :
    ∀ c ∈ decDigits l, isDigitCh c = true := by
  intro c hc
  unfold decDigits at hc
  obtain ⟨d, _, rfl⟩ := List.mem_map.mp hc
  exact (digitCharOf_facts d).1

theorem decDigits_length (l : List (Fin 10)) : (decDigits l).length = l.length :=
  List.length_map _ _

theorem decDigits_sep_free (l : List (Fin 10)) :
    ∀ c ∈ decDigits l, isWSCh c = false ∧ c ≠ ',' ∧ c ≠ '/' ∧ c ≠ '.' ∧ c ≠ ')' := by
  intro c hc
  obtain ⟨d, _, rfl⟩ := List.mem_map.mp hc
  obtain ⟨_, h2, h3, h4, h5, h6⟩ := digitCharOf_facts d
  exact ⟨h2, h3, h4, h5, h6⟩

theorem decTokChars_sep_free (ip fp : List (Fin 10)) :
    ∀ c ∈ decTokChars ip fp, isWSCh c = false ∧ c ≠ ',' ∧ c ≠ '/' ∧ c ≠ ')' := by
  intro c hc
  unfold decTokChars at hc
  rcases hfp : fp.isEmpty with _ | _
  · rw [hfp] at hc
    simp only [Bool.false_eq_true, if_false, List.mem_append, List.mem_cons] at hc
    rcases hc with hc | hc | hc
    · obtain ⟨h2, h3, h4, _, h6⟩ := decDigits_sep_free ip c hc
      exact ⟨h2, h3, h4, h6⟩
    · subst hc; refine ⟨by decide, by decide, by decide, by decide⟩
    · obtain ⟨h2, h3, h4, _, h6⟩ := decDigits_sep_free fp c hc
      exact ⟨h2, h3, h4, h6⟩
  · rw [hfp] at hc
    simp only [if_true] at hc
    obtain ⟨h2, h3, h4, _, h6⟩ := decDigits_sep_free ip c hc
    exact ⟨h2, h3, h4, h6⟩

theorem parseDecTok_decTok (ip fp : List (Fin 10)) (rest : List Char)
    (hip : fp = [] → ip ≠ [])
    (hd : ∀ c ∈ rest.head?, isDigitCh c = false)
    (hdot : ∀ c ∈ rest.head?, c ≠ '.') :
    parseDecTok (decTokChars ip fp ++ rest) = some (decTokVal ip fp, rest) := by
  cases fp with
  | nil =>
    have hip' : ip ≠ [] := hip rfl
    have hne : decDigits ip ≠ [] := by
      unfold decDigits
      simp [List.map_eq_nil_iff, hip']
    have hchars : decTokChars ip [] = decDigits ip := by simp [decTokChars]
    rw [hchars]
    unfold parseDecTok
    rw [takeWhile_append_all (decDigits_digits ip) hd,
      dropWhile_append_all (decDigits_digits ip) hd]
    have hval : decTokVal ip [] = (digitsToNat (decDigits ip) : ℚ) := by
      simp [decTokVal, decDigits, digitsToNat]
    cases rest with
    | nil =>
      simp only [List.isEmpty_eq_true, hne, if_false, hval]
    | cons c t =>
      have hc : c ≠ '.' := hdot c (by simp)
      split
      · rename_i r2 heq
        injection heq with h1 _
        exact absurd h1 hc
      · simp only [List.isEmpty_eq_true, hne, if_false, hval]
  | cons d ds =>
    have hchars : decTokChars ip (d :: ds) =
        decDigits ip ++ '.' :: decDigits (d :: ds) := by simp [decTokChars]
    rw [hchars, List.append_assoc, List.cons_append]
    unfold parseDecTok
    have hdig1 : ∀ c ∈ ('.' :: (decDigits (d :: ds) ++ rest)).head?,
        isDigitCh c = false := by
      intro c hc
      simp only [List.head?_cons, Option.mem_def, Option.some.injEq] at hc
      subst hc
      decide
    rw [dropWhile_append_all (decDigits_digits ip) hdig1]
    have hne2 : decDigits (d :: ds) ≠ [] := by simp [decDigits]
    split
    · rename_i r2 heq
      injection heq with _ h2
      subst h2
      rw [takeWhile_append_all (decDigits_digits ip) hdig1,
        takeWhile_append_all (decDigits_digits (d :: ds)) hd,
        dropWhile_append_all (decDigits_digits (d :: ds)) hd]
      simp only [List.isEmpty_eq_true, hne2, if_false, decTokVal, decDigits_length]
    · rename_i hcon
      exact absurd rfl (hcon _)

/-! ## Matcher evaluation on rendered inputs -/

theorem mem_of_head? {l : List Char} {c : Char} (h : c ∈ l.head?) : c ∈ l := by
  rw [List.eq_cons_of_mem_head? h]
  exact List.mem_cons_self _ _

theorem skipWS_natDigits_append (n : ℕ) (X : List Char) :
    skipWS (natDigits n ++ X) = natDigits n ++ X := by
  apply skipWS_eq_self
  intro c hc
  rw [List.head?_append_of_ne_nil _ (natDigits_ne_nil n)] at hc
  exact natDigits_not_ws n c hc

theorem skipWS_comma (X : List Char) : skipWS (',' :: X) = ',' :: X := by
  apply skipWS_eq_self
  intro c hc
  simp only [List.head?_cons, Option.mem_def, Option.some.injEq] at hc
  subst hc
  decide

theorem comma_not_digit (X : List Char) :
    ∀ c ∈ (',' :: X).head?, isDigitCh c = false := by
  intro c hc
  simp only [List.head?_cons, Option.mem_def, Option.some.injEq] at hc
  subst hc
  decide

theorem expectCh_self (c : Char) (t : List Char) : expectCh c (c :: t) = some t := by
  simp [expectCh]

theorem decTokChars_ne_nil (ip fp : List (Fin 10)) (hip : fp = [] → ip ≠ []) :
    decTokChars ip fp ≠ [] := by
  cases fp with
  | nil =>
    simp [decTokChars, decDigits, List.map_eq_nil_iff]
    exact hip rfl
  | cons d ds => simp [decTokChars, decDigits]

theorem skipWS_decTok_append (ip fp : List (Fin 10)) (hip : fp = [] → ip ≠ [])
    (X : List Char) : skipWS (decTokChars ip fp ++ X) = decTokChars ip fp ++ X := by
  apply skipWS_eq_self
  intro c hc
  rw [List.head?_append_of_ne_nil _ (decTokChars_ne_nil ip fp hip)] at hc
  exact (decTokChars_sep_free ip fp c (mem_of_head? hc)).1

theorem skipWS_decTok (ip fp : List (Fin 10)) :
    skipWS (decTokChars ip fp) = decTokChars ip fp := by
  apply skipWS_eq_self
  intro c hc
  exact (decTokChars_sep_free ip fp c (mem_of_head? hc)).1

theorem rparen_not_digit : ∀ c ∈ ([')'] : List Char).head?, isDigitCh c = false := by
  intro c hc
  simp only [List.head?_cons, Option.mem_def, Option.some.injEq] at hc
  subst hc
  decide

theorem rparen_not_dot : ∀ c ∈ ([')'] : List Char).head?, c ≠ '.' := by
  intro c hc
  simp only [List.head?_cons, Option.mem_def, Option.some.injEq] at hc
  subst hc
  decide

theorem parseDecTok_decTok_nil (ip fp : List (Fin 10)) (hip : fp = [] → ip ≠ []) :
    parseDecTok (decTokChars ip fp) = some (decTokVal ip fp, []) := by
  have h := parseDecTok_decTok ip fp [] hip (by intro c hc; simp at hc)
    (by intro c hc; simp at hc)
  rwa [List.append_nil] at h

theorem rgbaAlphaMatch_input (r g b : ℕ) (ip fp : List (Fin 10))
    (hip : fp = [] → ip ≠ []) :
    rgbaAlphaMatch ('r' :: 'g' :: 'b' :: 'a' :: '(' ::
        (natDigits r ++ ',' :: (natDigits g ++ ',' ::
          (natDigits b ++ ',' :: (decTokChars ip fp ++ [')']))))) =
      some (decTokVal ip fp) := by
  unfold rgbaAlphaMatch
  rw [show stripPrefixCI rgbaPfx ('r' :: 'g' :: 'b' :: 'a' :: '(' ::
      (natDigits r ++ ',' :: (natDigits g ++ ',' ::
        (natDigits b ++ ',' :: (decTokChars ip fp ++ [')']))))) =
    some (natDigits r ++ ',' :: (natDigits g ++ ',' ::
      (natDigits b ++ ',' :: (decTokChars ip fp ++ [')'])))) from rfl]
  simp only [Option.bind_eq_bind, Option.some_bind]
  rw [skipWS_natDigits_append, parseNatTok_natDigits r _ (comma_not_digit _),
    Option.some_bind]
  rw [skipWS_comma, expectCh_self, Option.some_bind]
  rw [skipWS_natDigits_append, parseNatTok_natDigits g _ (comma_not_digit _),
    Option.some_bind]
  rw [skipWS_comma, expectCh_self, Option.some_bind]
  rw [skipWS_natDigits_append, parseNatTok_natDigits b _ (comma_not_digit _),
    Option.some_bind]
  rw [skipWS_comma, expectCh_self, Option.some_bind]
  rw [skipWS_decTok_append ip fp hip,
    parseDecTok_decTok ip fp [')'] hip rparen_not_digit rparen_not_dot,
    Option.some_bind]
  rfl

theorem splitAtLastSep_eval (sep : Char) (before after : List Char)
    (hafter : ∀ c ∈ after, c ≠ sep) :
    splitAtLastSep sep (before ++ sep :: after) = some (before, after) := by
  unfold splitAtLastSep
  have h1 : ∀ c ∈ after.reverse, (decide (c ≠ sep)) = true := by
    intro c hc
    simp only [decide_eq_true_eq]
    exact hafter c (List.mem_reverse.mp hc)
  have h2 : ∀ c ∈ (sep :: before.reverse).head?, (decide (c ≠ sep)) = false := by
    intro c hc
    simp only [List.head?_cons, Option.mem_def, Option.some.injEq] at hc
    subst hc
    simp
  rw [show (before ++ sep :: after).reverse = after.reverse ++ sep :: before.reverse
    from by simp]
  rw [takeWhile_append_all h1 h2, dropWhile_append_all h1 h2]
  simp

theorem hslaAlphaMatch_input (body : List Char) (ip fp : List (Fin 10))
    (hip : fp = [] → ip ≠ []) :
    hslaAlphaMatch ('h' :: 's' :: 'l' :: 'a' :: '(' ::
        (body ++ ',' :: (decTokChars ip fp ++ [')']))) = some (decTokVal ip fp) := by
  unfold hslaAlphaMatch
  rw [show stripPrefixCI hslaPfx ('h' :: 's' :: 'l' :: 'a' :: '(' ::
      (body ++ ',' :: (decTokChars ip fp ++ [')']))) =
    some (body ++ ',' :: (decTokChars ip fp ++ [')'])) from rfl]
  simp only [Option.bind_eq_bind, Option.some_bind]
  rw [show (body ++ ',' :: (decTokChars ip fp ++ [')'])).reverse =
    ')' :: ((decTokChars ip fp).reverse ++ ',' :: body.reverse) from by simp]
  split
  · rename_i revMid heq
    injection heq with h1 h2
    subst h2
    rw [show ((decTokChars ip fp).reverse ++ ',' :: body.reverse).reverse =
      body ++ ',' :: decTokChars ip fp from by simp]
    rw [splitAtLastSep_eval ',' body (decTokChars ip fp)
      (fun c hc => (decTokChars_sep_free ip fp c hc).2.1), Option.some_bind]
    unfold tailAlphaMatch
    rw [skipWS_decTok, parseDecTok_decTok_nil ip fp hip]
    simp only [Option.bind_eq_bind, Option.some_bind]
    rfl
  · rename_i hcon
    exact absurd rfl (hcon _)

theorem hslSlashAlphaMatch_input (body : List Char) (ip fp : List (Fin 10))
    (hip : fp = [] → ip ≠ []) :
    hslSlashAlphaMatch ('h' :: 's' :: 'l' :: '(' ::
        (body ++ '/' :: (decTokChars ip fp ++ [')']))) = some (decTokVal ip fp) := by
  unfold hslSlashAlphaMatch
  rw [show stripPrefixCI hslPfx ('h' :: 's' :: 'l' :: '(' ::
      (body ++ '/' :: (decTokChars ip fp ++ [')']))) =
    some (body ++ '/' :: (decTokChars ip fp ++ [')'])) from rfl]
  simp only [Option.bind_eq_bind, Option.some_bind]
  rw [show (body ++ '/' :: (decTokChars ip fp ++ [')'])).reverse =
    ')' :: ((decTokChars ip fp).reverse ++ '/' :: body.reverse) from by simp]
  split
  · rename_i revMid heq
    injection heq with h1 h2
    subst h2
    rw [show ((decTokChars ip fp).reverse ++ '/' :: body.reverse).reverse =
      body ++ '/' :: decTokChars ip fp from by simp]
    rw [splitAtLastSep_eval '/' body (decTokChars ip fp)
      (fun c hc => (decTokChars_sep_free ip fp c hc).2.2.1), Option.some_bind]
    unfold tailAlphaMatch
    rw [skipWS_decTok, parseDecTok_decTok_nil ip fp hip]
    simp only [Option.bind_eq_bind, Option.some_bind]
    rfl
  · rename_i hcon
    exact absurd rfl (hcon _)

/-! ## Hex digit facts -/

theorem hexCharOf_isHex : ∀ d : Fin 16, isHexCh (hexCharOf d) = true := by decide

theorem hexCharOf_not_ws : ∀ d : Fin 16, isWSCh (hexCharOf d) = false := by decide

theorem hexToNat_dup : ∀ d : Fin 16, hexToNat [hexCharOf d, hexCharOf d] = 17 * d.val := by
  decide

theorem hexToNat_pair :
    ∀ d e : Fin 16, hexToNat [hexCharOf d, hexCharOf e] = 16 * d.val + e.val := by
  decide

/-! ## `isSemiTransparentColor` on each rendered syntax family -/

theorem rgbaInputL_trim (r g b : ℕ) (ip fp : List (Fin 10)) :
    trimChars (rgbaInputL r g b ip fp) = rgbaInputL r g b ip fp := by
  apply trimChars_eq_self
  · intro c hc
    simp only [rgbaInputL, List.head?_cons, Option.mem_def, Option.some.injEq] at hc
    subst hc
    decide
  · intro c hc
    rw [show rgbaInputL r g b ip fp =
      ('r' :: 'g' :: 'b' :: 'a' :: '(' :: (natDigits r ++ ',' ::
        (natDigits g ++ ',' :: (natDigits b ++ ',' :: decTokChars ip fp)))) ++ [')']
      from by simp [rgbaInputL]] at hc
    rw [List.getLast?_concat] at hc
    simp only [Option.mem_def, Option.some.injEq] at hc
    subst hc
    decide

theorem isSemiL_rgba (r g b : ℕ) (ip fp : List (Fin 10)) (hip : fp = [] → ip ≠ []) :
    isSemiTransparentColorL (rgbaInputL r g b ip fp) =
      decide (0 < decTokVal ip fp ∧ decTokVal ip fp < 1) := by
  unfold isSemiTransparentColorL
  rw [rgbaInputL_trim]
  rw [show rgbaAlphaMatch (rgbaInputL r g b ip fp) = some (decTokVal ip fp) from
    rgbaAlphaMatch_input r g b ip fp hip]
  simp [rgbaInputL]

theorem hslaInputL_trim (body : List Char) (ip fp : List (Fin 10)) :
    trimChars (hslaInputL body ip fp) = hslaInputL body ip fp := by
  apply trimChars_eq_self
  · intro c hc
    simp only [hslaInputL, List.head?_cons, Option.mem_def, Option.some.injEq] at hc
    subst hc
    decide
  · intro c hc
    rw [show hslaInputL body ip fp =
      ('h' :: 's' :: 'l' :: 'a' :: '(' :: (body ++ ',' :: decTokChars ip fp)) ++ [')']
      from by simp [hslaInputL]] at hc
    rw [List.getLast?_concat] at hc
    simp only [Option.mem_def, Option.some.injEq] at hc
    subst hc
    decide

theorem isSemiL_hsla (body : List Char) (ip fp : List (Fin 10))
    (hip : fp = [] → ip ≠ []) :
    isSemiTransparentColorL (hslaInputL body ip fp) =
      decide (0 < decTokVal ip fp ∧ decTokVal ip fp < 1) := by
  unfold isSemiTransparentColorL
  rw [hslaInputL_trim]
  rw [show rgbaAlphaMatch (hslaInputL body ip fp) = none from rfl]
  rw [show hslaAlphaMatch (hslaInputL body ip fp) = some (decTokVal ip fp) from
    hslaAlphaMatch_input body ip fp hip]
  simp [hslaInputL]

theorem hslSlashInputL_trim (body : List Char) (ip fp : List (Fin 10)) :
    trimChars (hslSlashInputL body ip fp) = hslSlashInputL body ip fp := by
  apply trimChars_eq_self
  · intro c hc
    simp only [hslSlashInputL, List.head?_cons, Option.mem_def,
      Option.some.injEq] at hc
    subst hc
    decide
  · intro c hc
    rw [show hslSlashInputL body ip fp =
      ('h' :: 's' :: 'l' :: '(' :: (body ++ '/' :: decTokChars ip fp)) ++ [')']
      from by simp [hslSlashInputL]] at hc
    rw [List.getLast?_concat] at hc
    simp only [Option.mem_def, Option.some.injEq] at hc
    subst hc
    decide

theorem isSemiL_hslSlash (body : List Char) (ip fp : List (Fin 10))
    (hip : fp = [] → ip ≠ []) :
    isSemiTransparentColorL (hslSlashInputL body ip fp) =
      decide (0 < decTokVal ip fp ∧ decTokVal ip fp < 1) := by
  unfold isSemiTransparentColorL
  rw [hslSlashInputL_trim]
  rw [show rgbaAlphaMatch (hslSlashInputL body ip fp) = none from rfl]
  rw [show hslaAlphaMatch (hslSlashInputL body ip fp) = none from rfl]
  rw [show hslSlashAlphaMatch (hslSlashInputL body ip fp) = some (decTokVal ip fp)
    from hslSlashAlphaMatch_input body ip fp hip]
  simp [hslSlashInputL]

theorem hexInput_trim4 (c1 c2 c3 c4 : Fin 16) :
    trimChars ['#', hexCharOf c1, hexCharOf c2, hexCharOf c3, hexCharOf c4] =
      ['#', hexCharOf c1, hexCharOf c2, hexCharOf c3, hexCharOf c4] := by
  apply trimChars_eq_self
  · intro c hc
    simp only [List.head?_cons, Option.mem_def, Option.some.injEq] at hc
    subst hc
    decide
  · intro c hc
    rw [show (['#', hexCharOf c1, hexCharOf c2, hexCharOf c3,
        hexCharOf c4] : List Char).getLast? = some (hexCharOf c4) from rfl] at hc
    simp only [Option.mem_def, Option.some.injEq] at hc
    subst hc
    exact hexCharOf_not_ws c4

theorem hex4AlphaMatch_input (c1 c2 c3 c4 : Fin 16) :
    hex4AlphaMatch ['#', hexCharOf c1, hexCharOf c2, hexCharOf c3, hexCharOf c4] =
      some (((17 * c4.val : ℕ) : ℚ) / 255) := by
  simp [hex4AlphaMatch, hexCharOf_isHex, hexToNat_dup]

theorem isSemiL_hex4 (c1 c2 c3 c4 : Fin 16) :
    isSemiTransparentColorL
        ['#', hexCharOf c1, hexCharOf c2, hexCharOf c3, hexCharOf c4] =
      decide (0 < ((17 * c4.val : ℕ) : ℚ) / 255 ∧
        ((17 * c4.val : ℕ) : ℚ) / 255 < 1) := by
  unfold isSemiTransparentColorL
  rw [hexInput_trim4]
  rw [show rgbaAlphaMatch ['#', hexCharOf c1, hexCharOf c2, hexCharOf c3,
    hexCharOf c4] = none from rfl]
  rw [show hslaAlphaMatch ['#', hexCharOf c1, hexCharOf c2, hexCharOf c3,
    hexCharOf c4] = none from rfl]
  rw [show hslSlashAlphaMatch ['#', hexCharOf c1, hexCharOf c2, hexCharOf c3,
    hexCharOf c4] = none from rfl]
  rw [hex4AlphaMatch_input c1 c2 c3 c4]
  simp

theorem hexInput_trim8 (c1 c2 c3 c4 c5 c6 c7 c8 : Fin 16) :
    trimChars ['#', hexCharOf c1, hexCharOf c2, hexCharOf c3, hexCharOf c4,
        hexCharOf c5, hexCharOf c6, hexCharOf c7, hexCharOf c8] =
      ['#', hexCharOf c1, hexCharOf c2, hexCharOf c3, hexCharOf c4,
        hexCharOf c5, hexCharOf c6, hexCharOf c7, hexCharOf c8] := by
  apply trimChars_eq_self
  · intro c hc
    simp only [List.head?_cons, Option.mem_def, Option.some.injEq] at hc
    subst hc
    decide
  · intro c hc
    rw [show (['#', hexCharOf c1, hexCharOf c2, hexCharOf c3, hexCharOf c4,
        hexCharOf c5, hexCharOf c6, hexCharOf c7,
        hexCharOf c8] : List Char).getLast? = some (hexCharOf c8) from rfl] at hc
    simp only [Option.mem_def, Option.some.injEq] at hc
    subst hc
    exact hexCharOf_not_ws c8

theorem hex8AlphaMatch_input (c1 c2 c3 c4 c5 c6 c7 c8 : Fin 16) :
    hex8AlphaMatch ['#', hexCharOf c1, hexCharOf c2, hexCharOf c3, hexCharOf c4,
        hexCharOf c5, hexCharOf c6, hexCharOf c7, hexCharOf c8] =
      some (((16 * c7.val + c8.val : ℕ) : ℚ) / 255) := by
  simp [hex8AlphaMatch, hexCharOf_isHex, hexToNat_pair]

theorem isSemiL_hex8 (c1 c2 c3 c4 c5 c6 c7 c8 : Fin 16) :
    isSemiTransparentColorL
        ['#', hexCharOf c1, hexCharOf c2, hexCharOf c3, hexCharOf c4,
          hexCharOf c5, hexCharOf c6, hexCharOf c7, hexCharOf c8] =
      decide (0 < ((16 * c7.val + c8.val : ℕ) : ℚ) / 255 ∧
        ((16 * c7.val + c8.val : ℕ) : ℚ) / 255 < 1) := by
  unfold isSemiTransparentColorL
  rw [hexInput_trim8]
  rw [show rgbaAlphaMatch ['#', hexCharOf c1, hexCharOf c2, hexCharOf c3,
    hexCharOf c4, hexCharOf c5, hexCharOf c6, hexCharOf c7,
    hexCharOf c8] = none from rfl]
  rw [show hslaAlphaMatch ['#', hexCharOf c1, hexCharOf c2, hexCharOf c3,
    hexCharOf c4, hexCharOf c5, hexCharOf c6, hexCharOf c7,
    hexCharOf c8] = none from rfl]
  rw [show hslSlashAlphaMatch ['#', hexCharOf c1, hexCharOf c2, hexCharOf c3,
    hexCharOf c4, hexCharOf c5, hexCharOf c6, hexCharOf c7,
    hexCharOf c8] = none from rfl]
  rw [show hex4AlphaMatch ['#', hexCharOf c1, hexCharOf c2, hexCharOf c3,
    hexCharOf c4, hexCharOf c5, hexCharOf c6, hexCharOf c7,
    hexCharOf c8] = none from rfl]
  rw [hex8AlphaMatch_input c1 c2 c3 c4 c5 c6 c7 c8]
  simp

theorem rgbInputL_trim (r g b : ℕ) :
    trimChars (rgbInputL r g b) = rgbInputL r g b := by
  apply trimChars_eq_self
  · intro c hc
    simp only [rgbInputL, List.head?_cons, Option.mem_def, Option.some.injEq] at hc
    subst hc
    decide
  · intro c hc
    rw [show rgbInputL r g b =
      ('r' :: 'g' :: 'b' :: '(' :: (natDigits r ++ ',' ::
        (natDigits g ++ ',' :: natDigits b))) ++ [')']
      from by simp [rgbInputL]] at hc
    rw [List.getLast?_concat] at hc
    simp only [Option.mem_def, Option.some.injEq] at hc
    subst hc
    decide

theorem isSemiL_rgb (r g b : ℕ) :
    isSemiTransparentColorL (rgbInputL r g b) = false := by
  unfold isSemiTransparentColorL
  rw [rgbInputL_trim]
  rw [show rgbaAlphaMatch (rgbInputL r g b) = none from rfl]
  rw [show hslaAlphaMatch (rgbInputL r g b) = none from rfl]
  rw [show hslSlashAlphaMatch (rgbInputL r g b) = none from rfl]
  rw [show hex4AlphaMatch (rgbInputL r g b) = none from rfl]
  rw [show hex8AlphaMatch (rgbInputL r g b) = none from rfl]
  simp [rgbInputL]

theorem hexInput_trim3 (c1 c2 c3 : Fin 16) :
    trimChars ['#', hexCharOf c1, hexCharOf c2, hexCharOf c3] =
      ['#', hexCharOf c1, hexCharOf c2, hexCharOf c3] := by
  apply trimChars_eq_self
  · intro c hc
    simp only [List.head?_cons, Option.mem_def, Option.some.injEq] at hc
    subst hc
    decide
  · intro c hc
    rw [show (['#', hexCharOf c1, hexCharOf c2,
        hexCharOf c3] : List Char).getLast? = some (hexCharOf c3) from rfl] at hc
    simp only [Option.mem_def, Option.some.injEq] at hc
    subst hc
    exact hexCharOf_not_ws c3

theorem isSemiL_hex3 (c1 c2 c3 : Fin 16) :
    isSemiTransparentColorL ['#', hexCharOf c1, hexCharOf c2, hexCharOf c3] =
      false := by
  unfold isSemiTransparentColorL
  rw [hexInput_trim3]
  rw [show rgbaAlphaMatch ['#', hexCharOf c1, hexCharOf c2, hexCharOf c3] =
    none from rfl]
  rw [show hslaAlphaMatch ['#', hexCharOf c1, hexCharOf c2, hexCharOf c3] =
    none from rfl]
  rw [show hslSlashAlphaMatch ['#', hexCharOf c1, hexCharOf c2, hexCharOf c3] =
    none from rfl]
  rw [show hex4AlphaMatch ['#', hexCharOf c1, hexCharOf c2, hexCharOf c3] =
    none from rfl]
  rw [show hex8AlphaMatch ['#', hexCharOf c1, hexCharOf c2, hexCharOf c3] =
    none from rfl]
  simp

theorem hexInput_trim6 (c1 c2 c3 c4 c5 c6 : Fin 16) :
    trimChars ['#', hexCharOf c1, hexCharOf c2, hexCharOf c3, hexCharOf c4,
        hexCharOf c5, hexCharOf c6] =
      ['#', hexCharOf c1, hexCharOf c2, hexCharOf c3, hexCharOf c4,
        hexCharOf c5, hexCharOf c6] := by
  apply trimChars_eq_self
  · intro c hc
    simp only [List.head?_cons, Option.mem_def, Option.some.injEq] at hc
    subst hc
    decide
  · intro c hc
    rw [show (['#', hexCharOf c1, hexCharOf c2, hexCharOf c3, hexCharOf c4,
        hexCharOf c5, hexCharOf c6] : List Char).getLast? =
      some (hexCharOf c6) from rfl] at hc
    simp only [Option.mem_def, Option.some.injEq] at hc
    subst hc
    exact hexCharOf_not_ws c6

theorem isSemiL_hex6 (c1 c2 c3 c4 c5 c6 : Fin 16) :
    isSemiTransparentColorL ['#', hexCharOf c1, hexCharOf c2, hexCharOf c3,
        hexCharOf c4, hexCharOf c5, hexCharOf c6] = false := by
  unfold isSemiTransparentColorL
  rw [hexInput_trim6]
  rw [show rgbaAlphaMatch ['#', hexCharOf c1, hexCharOf c2, hexCharOf c3,
    hexCharOf c4, hexCharOf c5, hexCharOf c6] = none from rfl]
  rw [show hslaAlphaMatch ['#', hexCharOf c1, hexCharOf c2, hexCharOf c3,
    hexCharOf c4, hexCharOf c5, hexCharOf c6] = none from rfl]
  rw [show hslSlashAlphaMatch ['#', hexCharOf c1, hexCharOf c2, hexCharOf c3,
    hexCharOf c4, hexCharOf c5, hexCharOf c6] = none from rfl]
  rw [show hex4AlphaMatch ['#', hexCharOf c1, hexCharOf c2, hexCharOf c3,
    hexCharOf c4, hexCharOf c5, hexCharOf c6] = none from rfl]
  rw [show hex8AlphaMatch ['#', hexCharOf c1, hexCharOf c2, hexCharOf c3,
    hexCharOf c4, hexCharOf c5, hexCharOf c6] = none from rfl]
  simp

/-- Claim C6: for every color string in a supported alpha-carrying syntax —
`rgba(r,g,b,a)`, `hsla(...,a)`, `hsl(.../a)` (arbitrary `hsla`/`hsl` bodies,
arbitrary decimal alpha literals), `#RGBA` and `#RRGGBBAA` — the result of
`isSemiTransparentColor` is `true` exactly when the carried alpha value `a`
satisfies `0 < a < 1` (so `a = 0` and `a = 1` give `false`); and for the
alpha-free syntaxes `rgb(r,g,b)`, `#RGB`, `#RRGGBB` it is always `false`. -/
theorem isSemiTransparent_characterization :
    (∀ (r g b : ℕ) (ip fp : List (Fin 10)), (fp = [] → ip ≠ []) →
      isSemiTransparentColor (rgbaInput r g b ip fp) =
        decide (0 < decTokVal ip fp ∧ decTokVal ip fp < 1)) ∧
    (∀ (body : String) (ip fp : List (Fin 10)), (fp = [] → ip ≠ []) →
      isSemiTransparentColor (hslaInput body ip fp) =
        decide (0 < decTokVal ip fp ∧ decTokVal ip fp < 1)) ∧
    (∀ (body : String) (ip fp : List (Fin 10)), (fp = [] → ip ≠ []) →
      isSemiTransparentColor (hslSlashInput body ip fp) =
        decide (0 < decTokVal ip fp ∧ decTokVal ip fp < 1)) ∧
    (∀ c1 c2 c3 c4 : Fin 16,
      isSemiTransparentColor (hex4Input c1 c2 c3 c4) =
        decide (0 < ((17 * c4.val : ℕ) : ℚ) / 255 ∧
          ((17 * c4.val : ℕ) : ℚ) / 255 < 1)) ∧
    (∀ c1 c2 c3 c4 c5 c6 c7 c8 : Fin 16,
      isSemiTransparentColor (hex8Input c1 c2 c3 c4 c5 c6 c7 c8) =
        decide (0 < ((16 * c7.val + c8.val : ℕ) : ℚ) / 255 ∧
          ((16 * c7.val + c8.val : ℕ) : ℚ) / 255 < 1)) ∧
    (∀ r g b : ℕ, isSemiTransparentColor (rgbInput r g b) = false) ∧
    (∀ c1 c2 c3 : Fin 16, isSemiTransparentColor (hex3Input c1 c2 c3) = false) ∧
    (∀ c1 c2 c3 c4 c5 c6 : Fin 16,
      isSemiTransparentColor (hex6Input c1 c2 c3 c4 c5 c6) = false) := by
  refine ⟨?_, ?_, ?_, ?_, ?_, ?_, ?_, ?_⟩
  · intro r g b ip fp hip
    exact isSemiL_rgba r g b ip fp hip
  · intro body ip fp hip
    exact isSemiL_hsla body.data ip fp hip
  · intro body ip fp hip
    exact isSemiL_hslSlash body.data ip fp hip
  · intro c1 c2 c3 c4
    exact isSemiL_hex4 c1 c2 c3 c4
  · intro c1 c2 c3 c4 c5 c6 c7 c8
    exact isSemiL_hex8 c1 c2 c3 c4 c5 c6 c7 c8
  · intro r g b
    exact isSemiL_rgb r g b
  · intro c1 c2 c3
    exact isSemiL_hex3 c1 c2 c3
  · intro c1 c2 c3 c4 c5 c6
    exact isSemiL_hex6 c1 c2 c3 c4 c5 c6

/-- Witness for C6: concrete members of four of the syntax families, with
the decimal-literal side conditions discharged. -/
theorem isSemiTransparent_characterization_witness :
    (isSemiTransparentColor (rgbaInput 1 2 3 [0] [5]) =
      decide (0 < decTokVal [0] [5] ∧ decTokVal [0] [5] < 1)) ∧
    (isSemiTransparentColor (hslaInput "1,2%,3%" [0] [5]) =
      decide (0 < decTokVal [0] [5] ∧ decTokVal [0] [5] < 1)) ∧
    (isSemiTransparentColor (hslSlashInput "1 2% 3% " [0] [5]) =
      decide (0 < decTokVal [0] [5] ∧ decTokVal [0] [5] < 1)) ∧
    (isSemiTransparentColor (rgbInput 10 20 30) = false) :=
  ⟨isSemiTransparent_characterization.1 1 2 3 [0] [5] (by decide),
   isSemiTransparent_characterization.2.1 "1,2%,3%" [0] [5] (by decide),
   isSemiTransparent_characterization.2.2.1 "1 2% 3% " [0] [5] (by decide),
   isSemiTransparent_characterization.2.2.2.2.2.1 10 20 30⟩

/-! ## `addTransparencyToColor` branch analysis and idempotence -/

theorem addT_hex3 {l : List Char} {al : JSNum} {r g b : ℕ}
    (h : hex3Triple (trimChars l) = some (r, g, b)) :
    addTransparencyToColorL l al = rgbaOutChars r g b al := by
  simp only [addTransparencyToColorL, h]

theorem addT_hex6 {l : List Char} {al : JSNum} {r g b : ℕ}
    (h3 : hex3Triple (trimChars l) = none)
    (h6 : hex6Triple (trimChars l) = some (r, g, b)) :
    addTransparencyToColorL l al = rgbaOutChars r g b al := by
  simp only [addTransparencyToColorL, h3, h6]

theorem addT_rgb {l : List Char} {al : JSNum} {r g b : ℕ}
    (h3 : hex3Triple (trimChars l) = none)
    (h6 : hex6Triple (trimChars l) = none)
    (hr : rgbTriple (trimChars l) = some (r, g, b)) :
    addTransparencyToColorL l al = rgbaOutChars r g b al := by
  simp only [addTransparencyToColorL, h3, h6, hr]

theorem addT_hsl {l : List Char} {al : JSNum} {h s v : List Char}
    (h3 : hex3Triple (trimChars l) = none)
    (h6 : hex6Triple (trimChars l) = none)
    (hr : rgbTriple (trimChars l) = none)
    (hh : hslTriple (trimChars l) = some (h, s, v)) :
    addTransparencyToColorL l al = hslaOutChars h s v al := by
  simp only [addTransparencyToColorL, h3, h6, hr, hh]

theorem addT_unparsed {l : List Char} {al : JSNum}
    (h3 : hex3Triple (trimChars l) = none)
    (h6 : hex6Triple (trimChars l) = none)
    (hr : rgbTriple (trimChars l) = none)
    (hh : hslTriple (trimChars l) = none) :
    addTransparencyToColorL l al = trimChars l := by
  simp only [addTransparencyToColorL, h3, h6, hr, hh]

theorem rgbaOut_trim (r g b : ℕ) (al : JSNum) :
    trimChars (rgbaOutChars r g b al) = rgbaOutChars r g b al := by
  apply trimChars_eq_self
  · intro c hc
    simp only [rgbaOutChars, List.head?_cons, Option.mem_def, Option.some.injEq] at hc
    subst hc
    decide
  · intro c hc
    rw [show rgbaOutChars r g b al =
      ('r' :: 'g' :: 'b' :: 'a' :: '(' :: (natDigits r ++ ',' :: ' ' ::
        (natDigits g ++ ',' :: ' ' :: (natDigits b ++ ',' :: ' ' ::
          al.render)))) ++ [')'] from by simp [rgbaOutChars]] at hc
    rw [List.getLast?_concat] at hc
    simp only [Option.mem_def, Option.some.injEq] at hc
    subst hc
    decide

theorem hslaOut_trim (h s v : List Char) (al : JSNum) :
    trimChars (hslaOutChars h s v al) = hslaOutChars h s v al := by
  apply trimChars_eq_self
  · intro c hc
    simp only [hslaOutChars, List.head?_cons, Option.mem_def, Option.some.injEq] at hc
    subst hc
    decide
  · intro c hc
    rw [show hslaOutChars h s v al =
      ('h' :: 's' :: 'l' :: 'a' :: '(' :: (h ++ ',' :: ' ' ::
        (s ++ ',' :: ' ' :: (v ++ ',' :: ' ' :: al.render)))) ++ [')']
      from by simp [hslaOutChars]] at hc
    rw [List.getLast?_concat] at hc
    simp only [Option.mem_def, Option.some.injEq] at hc
    subst hc
    decide

theorem addT_rgbaOut_stable (r g b : ℕ) (al al2 : JSNum) :
    addTransparencyToColorL (rgbaOutChars r g b al) al2 = rgbaOutChars r g b al := by
  rw [addT_unparsed (by rw [rgbaOut_trim]; rfl) (by rw [rgbaOut_trim]; rfl)
    (by rw [rgbaOut_trim]; rfl) (by rw [rgbaOut_trim]; rfl), rgbaOut_trim]

theorem addT_hslaOut_stable (h s v : List Char) (al al2 : JSNum) :
    addTransparencyToColorL (hslaOutChars h s v al) al2 = hslaOutChars h s v al := by
  rw [addT_unparsed (by rw [hslaOut_trim]; rfl) (by rw [hslaOut_trim]; rfl)
    (by rw [hslaOut_trim]; rfl) (by rw [hslaOut_trim]; rfl), hslaOut_trim]

theorem addTColorL_idem (l : List Char) (al : JSNum) :
    addTransparencyToColorL (addTransparencyToColorL l al) al =
      addTransparencyToColorL l al := by
  cases h3 : hex3Triple (trimChars l) with
  | some v =>
    obtain ⟨r, g, b⟩ := v
    rw [addT_hex3 h3, addT_rgbaOut_stable]
  | none =>
    cases h6 : hex6Triple (trimChars l) with
    | some v =>
      obtain ⟨r, g, b⟩ := v
      rw [addT_hex6 h3 h6, addT_rgbaOut_stable]
    | none =>
      cases hr : rgbTriple (trimChars l) with
      | some v =>
        obtain ⟨r, g, b⟩ := v
        rw [addT_rgb h3 h6 hr, addT_rgbaOut_stable]
      | none =>
        cases hh : hslTriple (trimChars l) with
        | some v =>
          obtain ⟨h, s, w⟩ := v
          rw [addT_hsl h3 h6 hr hh, addT_hslaOut_stable]
        | none =>
          rw [addT_unparsed h3 h6 hr hh]
          rw [addT_unparsed (by rw [trimChars_idem]; exact h3)
            (by rw [trimChars_idem]; exact h6)
            (by rw [trimChars_idem]; exact hr)
            (by rw [trimChars_idem]; exact hh), trimChars_idem]

/-- Claim C7: `addTransparencyToColor` is idempotent at a fixed alpha — for
every input color string and every alpha literal, re-applying the function
to its own output with the same alpha returns that output exactly. -/
theorem addTransparency_idem (c : String) (al : JSNum) :
    addTransparencyToColor (addTransparencyToColor c al) al =
      addTransparencyToColor c al :=
  congrArg String.mk (addTColorL_idem c.data al)

/-! ## Gradient rewriting and background dispatch -/

/-- Claim C8: `addTransparencyToGradient("linear-gradient(45deg, #ff0000,
#00ff00)", 0.3)` returns a linear-gradient whose first top-level argument is
still `45deg` and whose two color stops are the colors `rgba(255,0,0,0.3)`
and `rgba(0,255,0,0.3)` (the source renders them with `", "` separators;
the top-level split of the result and the parsed color values confirm the
stop structure). -/
theorem addTransparencyToGradient_example :
    addTransparencyToGradient "linear-gradient(45deg, #ff0000, #00ff00)" ⟨0, [3]⟩ =
      "linear-gradient(45deg, rgba(255, 0, 0, 0.3), rgba(0, 255, 0, 0.3))" ∧
    splitTopLevel "45deg, rgba(255, 0, 0, 0.3), rgba(0, 255, 0, 0.3)".data [] 0 =
      ["45deg".data, "rgba(255, 0, 0, 0.3)".data, "rgba(0, 255, 0, 0.3)".data] ∧
    parseCssColorToRgba "rgba(255, 0, 0, 0.3)" = some ⟨255, 0, 0, 3 / 10⟩ ∧
    parseCssColorToRgba "rgba(0, 255, 0, 0.3)" = some ⟨0, 255, 0, 3 / 10⟩ := by
  refine ⟨by decide, by decide, ?_, ?_⟩
  · rw [show parseCssColorToRgba "rgba(255, 0, 0, 0.3)" =
        some ⟨255, 0, 0, (0 : ℚ) + 3 / 10 ^ 1⟩ from rfl]
    norm_num
  · rw [show parseCssColorToRgba "rgba(0, 255, 0, 0.3)" =
        some ⟨0, 255, 0, (0 : ℚ) + 3 / 10 ^ 1⟩ from rfl]
    norm_num

/-- Counterexample to C9 as stated: an input *containing* `url(...)` that
also contains `gradient` takes the gradient branch (checked first in the
source) and is modified, not returned unchanged. -/
theorem processBackground_url_changed :
    hasSubstr "url(".data "linear-gradient(#ff0000, url(a.png))".data = true ∧
    processBackground "linear-gradient(#ff0000, url(a.png))" ⟨0, [3]⟩ =
      some "linear-gradient(rgba(255, 0, 0, 0.3), url(a.png))" ∧
    processBackground "linear-gradient(#ff0000, url(a.png))" ⟨0, [3]⟩ ≠
      some "linear-gradient(#ff0000, url(a.png))" :=
  ⟨by decide, by decide, by decide⟩

/-- Claim C9 (amended): for every nonempty input containing `url(` and not
containing `gradient`, `processBackground` returns the input unchanged, for
every alpha. -/
theorem processBackground_url_passthrough (b : String) (al : JSNum)
    (hne : b ≠ "")
    (hurl : hasSubstr "url(".data b.data = true)
    (hgrad : hasSubstr "gradient".data b.data = false) :
    processBackground b al = some b := by
  unfold processBackground
  rw [if_neg hne]
  by_cases hsemi : isSemiTransparentColor b = true
  · rw [if_pos hsemi]
  · rw [if_neg hsemi]
    simp only [hgrad, Bool.false_eq_true, if_false, hurl, if_true]

/-- Witness for the amended C9 at a plain image reference. -/
theorem processBackground_url_passthrough_witness :
    processBackground "url(photo.png)" ⟨0, [3]⟩ = some "url(photo.png)" :=
  processBackground_url_passthrough "url(photo.png)" ⟨0, [3]⟩
    (by decide) (by decide) (by decide)

/-! ## Ambient background sampler -/

theorem findNearest_skip_front (mids rest : List String) (bodyBg : String)
    (hmids : ∀ s ∈ mids, skipsElement s = true) :
    findNearestOpaqueBackground (mids ++ rest) bodyBg =
      findNearestOpaqueBackground rest bodyBg := by
  induction mids with
  | nil => rfl
  | cons m ms ih =>
    show (match elementBgRgba m with
        | some p => if 0 < p.a then some p
                    else findNearestOpaqueBackground (ms ++ rest) bodyBg
        | none => findNearestOpaqueBackground (ms ++ rest) bodyBg) =
      findNearestOpaqueBackground rest bodyBg
    split
    · rename_i p heq
      have hm := hmids m (List.mem_cons_self m ms)
      unfold skipsElement at hm
      rw [heq] at hm
      have hple : ¬ (0 < p.a) := by simpa using hm
      rw [if_neg hple]
      exact ih (fun s hs => hmids s (List.mem_cons_of_mem m hs))
    · exact ih (fun s hs => hmids s (List.mem_cons_of_mem m hs))

/-- Claim C4 (amended): when every element of the ancestor chain is skipped
by the walk (no parsed background with alpha > 0) *and the root fallback's
background color is empty or unparsable*, the auto-text-color update
resolves to `textOnLight`.  (When the root fallback parses — even at alpha
0 — the source classifies its RGB instead; see the counterexample.) -/
theorem resolveTextColor_fallback_light (chain : List String) (bodyBg : String)
    (tD tL : String)
    (hchain : ∀ s ∈ chain, skipsElement s = true)
    (hbody : bodyBg = "" ∨ parseCssColorToRgba bodyBg = none) :
    resolveTextColor chain bodyBg tD tL = tL := by
  have h1 : findNearestOpaqueBackground chain bodyBg =
      findNearestOpaqueBackground [] bodyBg := by
    have h := findNearest_skip_front chain [] bodyBg hchain
    simpa using h
  have h2 : findNearestOpaqueBackground [] bodyBg = none := by
    unfold findNearestOpaqueBackground
    rcases hbody with h | h
    · rw [if_pos h]
    · by_cases hb : bodyBg = ""
      · rw [if_pos hb]
      · rw [if_neg hb]
        exact h
  unfold resolveTextColor
  rw [h1, h2]

/-- Witness for the amended C4: one fully-transparent ancestor and an empty
body background. -/
theorem resolveTextColor_fallback_light_witness :
    resolveTextColor ["rgba(0, 0, 0, 0)"] "" "#ffffff" "#111111" = "#111111" :=
  resolveTextColor_fallback_light ["rgba(0, 0, 0, 0)"] "" "#ffffff" "#111111"
    (by decide) (Or.inl rfl)

/-- Counterexample to C4 as stated: with an empty ancestor chain and the
body's computed background `rgba(0, 0, 0, 0)` (alpha 0, so *no* element up
to the root fallback has alpha > 0), the fallback read skips the alpha
check, parses transparent black, classifies it dark, and resolves to
`textOnDark` (`#ffffff`) instead of `textOnLight` (`#111111`). -/
theorem resolveTextColor_transparent_body_dark :
    parseCssColorToRgba "rgba(0, 0, 0, 0)" = some ⟨0, 0, 0, 0⟩ ∧
    resolveTextColor [] "rgba(0, 0, 0, 0)" "#ffffff" "#111111" = "#ffffff" ∧
    resolveTextColor [] "rgba(0, 0, 0, 0)" "#ffffff" "#111111" ≠ "#111111" := by
  have hdark : isRgbColorDark 0 0 0 := by
    unfold isRgbColorDark relativeLuminance srgbLinearize
    norm_num
  have hres : resolveTextColor [] "rgba(0, 0, 0, 0)" "#ffffff" "#111111" =
      "#ffffff" := by
    show (if isRgbColorDark 0 0 0 then "#ffffff" else "#111111") = "#ffffff"
    rw [if_pos hdark]
  refine ⟨?_, hres, ?_⟩
  · rw [show parseCssColorToRgba "rgba(0, 0, 0, 0)" =
      some ⟨0, 0, 0, ((0 : ℕ) : ℚ)⟩ from rfl]
    norm_num
  · rw [hres]
    decide

/-- Claim C5: in an ancestor chain whose intermediate elements are all
fully transparent (skipped by the walk) and whose outermost element has
computed background `rgb(10,10,10)`, the sampler returns that color with
alpha 1, classifies it dark (gamma-expanded relative luminance < 0.5), and
the update resolves the effective text color to `textOnDark`. -/
theorem sampler_dark_outer (mids : List String) (bodyBg : String)
    (tD tL : String)
    (hmids : ∀ s ∈ mids, skipsElement s = true) :
    findNearestOpaqueBackground (mids ++ ["rgb(10,10,10)"]) bodyBg =
      some ⟨10, 10, 10, 1⟩ ∧
    isRgbColorDark 10 10 10 ∧
    resolveTextColor (mids ++ ["rgb(10,10,10)"]) bodyBg tD tL = tD := by
  have hdark : isRgbColorDark 10 10 10 := by
    unfold isRgbColorDark relativeLuminance srgbLinearize
    norm_num
  have hfind : findNearestOpaqueBackground (mids ++ ["rgb(10,10,10)"]) bodyBg =
      some ⟨10, 10, 10, 1⟩ := by
    rw [findNearest_skip_front mids ["rgb(10,10,10)"] bodyBg hmids]
    rfl
  refine ⟨hfind, hdark, ?_⟩
  unfold resolveTextColor
  rw [hfind]
  show (if isRgbColorDark 10 10 10 then tD else tL) = tD
  rw [if_pos hdark]

/-- Witness for C5: one transparent intermediate ancestor. -/
theorem sampler_dark_outer_witness :
    (findNearestOpaqueBackground (["rgba(0, 0, 0, 0)"] ++ ["rgb(10,10,10)"]) "" =
      some ⟨10, 10, 10, 1⟩) ∧
    isRgbColorDark 10 10 10 ∧
    resolveTextColor (["rgba(0, 0, 0, 0)"] ++ ["rgb(10,10,10)"]) "" "#ffffff"
      "#111111" = "#ffffff" :=
  sampler_dark_outer ["rgba(0, 0, 0, 0)"] "" "#ffffff" "#111111" (by decide)

/-! ## Theorems: quality bounds and radius clamping -/

theorem clamp_mem {lo hi x : ℚ} (h : lo ≤ hi) :
    lo ≤ min hi (max lo x) ∧ min hi (max lo x) ≤ hi :=
  ⟨le_min h (le_max_left lo x), min_le_left hi _⟩

/-- Claim C2: for every preset and every combination of overrides (absent,
negative or arbitrarily large), the resolved quality options satisfy
`resolutionScale ∈ [0.3, 0.8]`, `scaleMultiplier ∈ [0.6, 1.2]`,
`blurMultiplier ∈ [0.6, 1.2]` and `fpsCap ∈ [30, 60]`. -/
theorem resolveQualityOptions_bounds (p : QualityPreset) (o : QualityOverrides) :
    (0.3 ≤ (resolveQualityOptions p o).resolutionScale ∧
      (resolveQualityOptions p o).resolutionScale ≤ 0.8) ∧
    (0.6 ≤ (resolveQualityOptions p o).scaleMultiplier ∧
      (resolveQualityOptions p o).scaleMultiplier ≤ 1.2) ∧
    (0.6 ≤ (resolveQualityOptions p o).blurMultiplier ∧
      (resolveQualityOptions p o).blurMultiplier ≤ 1.2) ∧
    (30 ≤ (resolveQualityOptions p o).fpsCap ∧
      (resolveQualityOptions p o).fpsCap ≤ 60) := by
  refine ⟨?_, ?_, ?_, ?_⟩ <;>
    exact clamp_mem (by norm_num)

/-- Claim C1: for positive panel dimensions, both the CSS-visible corner
radius (`effectiveRadiusPx`) and the corner radius written into the generated
displacement map never exceed half of the panel's shorter side. -/
theorem radius_clamped (radius w h : ℚ) (hw : 0 < w) (hh : 0 < h) :
    effectiveRadiusPx radius w h ≤ min w h / 2 ∧
    displacementMapRadius radius w h ≤ min w h / 2 := by
  have hmin : min (w / 2) (h / 2) = min w h / 2 := by
    rcases le_total w h with hwh | hwh
    · rw [min_eq_left hwh, min_eq_left (by linarith)]
    · rw [min_eq_right hwh, min_eq_right (by linarith)]
  constructor
  · calc effectiveRadiusPx radius w h ≤ min (w / 2) (h / 2) := min_le_right _ _
      _ = min w h / 2 := hmin
  · have h1 : min radius (min (w / 2) (h / 2)) ≤ min w h / 2 := by
      calc min radius (min (w / 2) (h / 2)) ≤ min (w / 2) (h / 2) := min_le_right _ _
        _ = min w h / 2 := hmin
    have h2 : 0 ≤ min w h / 2 := by
      rcases le_total w h with hwh | hwh
      · rw [min_eq_left hwh]; linarith
      · rw [min_eq_right hwh]; linarith
    unfold displacementMapRadius
    nlinarith [h1, h2]

/-- Witness for C1 at the library defaults: `radius = 50` on a 400×200 panel. -/
theorem radius_clamped_witness :
    (0 : ℚ) < 400 ∧ (0 : ℚ) < 200 ∧
    (effectiveRadiusPx 50 400 200 ≤ min 400 200 / 2 ∧
      displacementMapRadius 50 400 200 ≤ min 400 200 / 2) :=
  ⟨by norm_num, by norm_num, radius_clamped 50 400 200 (by norm_num) (by norm_num)⟩

/-! ## Theorems: cross-instance registry -/

theorem notifiedMultiplier_ge (c : ℤ) : 0.7 ≤ notifiedMultiplier c :=
  le_max_left _ _

theorem notifiedMultiplier_le_one (c : ℤ) : notifiedMultiplier c ≤ 1 := by
  have hk : (1 : ℝ) ≤ ((max 1 c : ℤ) : ℝ) := by exact_mod_cast le_max_left 1 c
  have hs : (1 : ℝ) ≤ Real.sqrt ((max 1 c : ℤ) : ℝ) := by
    calc (1 : ℝ) = Real.sqrt 1 := Real.sqrt_one.symm
      _ ≤ Real.sqrt ((max 1 c : ℤ) : ℝ) := Real.sqrt_le_sqrt hk
  have hspos : 0 < Real.sqrt ((max 1 c : ℤ) : ℝ) := lt_of_lt_of_le one_pos hs
  exact max_le (by norm_num) ((div_le_one hspos).mpr hs)

theorem notifiedMultiplier_of_le_one {c : ℤ} (h : c ≤ 1) :
    notifiedMultiplier c = 1 := by
  unfold notifiedMultiplier
  rw [max_eq_left h]
  norm_num

theorem unregisterMany_get (cbs : List ℕ) :
    ∀ (r : Registry) (g : String) (grp : Group), r g = some grp → 0 ≤ grp.count →
    ∃ ls, (unregisterMany r g cbs) g = some ⟨max 0 (grp.count - cbs.length), ls⟩ := by
  induction cbs with
  | nil =>
    intro r g grp hg hpos
    refine ⟨grp.listeners, ?_⟩
    simpa [unregisterMany, max_eq_right hpos] using hg
  | cons cb rest ih =>
    intro r g grp hg hpos
    have hstep : (unregisterInstance r g cb) g =
        some ⟨max 0 (grp.count - 1), grp.listeners.filter (· ≠ cb)⟩ := by
      unfold unregisterInstance
      rw [hg]
      simp
    obtain ⟨ls, hls⟩ := ih (unregisterInstance r g cb) g
      ⟨max 0 (grp.count - 1), grp.listeners.filter (· ≠ cb)⟩ hstep (le_max_left _ _)
    refine ⟨ls, ?_⟩
    have harith : max 0 (max 0 (grp.count - 1) - (rest.length : ℤ)) =
        max 0 (grp.count - ((cb :: rest).length : ℤ)) := by
      simp only [List.length_cons]
      omega
    rw [show unregisterMany r g (cb :: rest) =
        unregisterMany (unregisterInstance r g cb) g rest from rfl, hls, harith]

theorem registerInstance_get_some (r : Registry) (g : String) (cb : ℕ) (grp : Group)
    (hg : r g = some grp) :
    ∃ ls, (registerInstance r g cb) g = some ⟨grp.count + 1, ls⟩ := by
  refine ⟨if grp.listeners.contains cb then grp.listeners else cb :: grp.listeners, ?_⟩
  unfold registerInstance
  rw [hg]
  simp

/-- Claim C3: for a group entry holding `count` registered instances
(`count ≥ 1`), the multiplier broadcast by `recomputeAndNotify` equals
`max(0.7, 1/sqrt(count))`; and after unregistering all of the group's
instances (in any order, one closure call per instance) and registering one
new instance, the broadcast multiplier is exactly `1`. -/
theorem registry_multiplier (r : Registry) (g : String) (grp : Group)
    (hg : r g = some grp) (hpos : 0 ≤ grp.count) :
    (1 ≤ grp.count →
      broadcastMultiplier r g = some (max 0.7 (1 / Real.sqrt (grp.count : ℝ)))) ∧
    (∀ (cbs : List ℕ) (cb : ℕ), cbs.length = grp.count.toNat →
      broadcastMultiplier (registerInstance (unregisterMany r g cbs) g cb) g =
        some 1) := by
  constructor
  · intro hone
    unfold broadcastMultiplier notifiedMultiplier
    rw [hg, Option.map_some']
    rw [max_eq_right hone]
  · intro cbs cb hlen
    obtain ⟨ls, hls⟩ := unregisterMany_get cbs r g grp hg hpos
    have hzero : max 0 (grp.count - (cbs.length : ℤ)) = 0 := by omega
    rw [hzero] at hls
    obtain ⟨ls2, hls2⟩ := registerInstance_get_some (unregisterMany r g cbs) g cb ⟨0, ls⟩ hls
    unfold broadcastMultiplier
    rw [hls2, Option.map_some']
    congr 1
    exact notifiedMultiplier_of_le_one (by norm_num)

/-- Witness for C3: a fresh group with a single registered instance. -/
theorem registry_multiplier_witness :
    ((1 ≤ (1 : ℤ) →
      broadcastMultiplier (registerInstance emptyRegistry "a" 7) "a" =
        some (max 0.7 (1 / Real.sqrt ((1 : ℤ) : ℝ)))) ∧
     (∀ (cbs : List ℕ) (cb : ℕ), cbs.length = (1 : ℤ).toNat →
      broadcastMultiplier
        (registerInstance (unregisterMany (registerInstance emptyRegistry "a" 7) "a" cbs) "a" cb)
        "a" = some 1)) :=
  registry_multiplier (registerInstance emptyRegistry "a" 7) "a" ⟨1, [7]⟩
    (by decide) (by decide)

theorem applyOp_preserves_nonneg (r : Registry) (op : RegistryOp)
    (h : ∀ g grp, r g = some grp → 0 ≤ grp.count) :
    ∀ g grp, applyOp r op g = some grp → 0 ≤ grp.count := by
  intro g grp hget
  cases op with
  | register g0 cb =>
    simp only [applyOp, registerInstance] at hget
    by_cases hx : g = g0
    · rw [if_pos hx] at hget
      injection hget with hinj
      subst hinj
      show 0 ≤ ((r g0).getD ⟨0, []⟩).count + 1
      cases hr : r g0 with
      | none => simp [hr]
      | some grp0 =>
        have := h g0 grp0 hr
        simp only [hr, Option.getD_some]
        omega
    · rw [if_neg hx] at hget
      exact h g grp hget
  | unregister g0 cb =>
    simp only [applyOp, unregisterInstance] at hget
    cases hr : r g0 with
    | none =>
      rw [hr] at hget
      exact h g grp hget
    | some grp0 =>
      rw [hr] at hget
      replace hget : (if g = g0 then
          some (⟨max 0 (grp0.count - 1), grp0.listeners.filter (· ≠ cb)⟩ : Group)
        else r g) = some grp := hget
      by_cases hx : g = g0
      · rw [if_pos hx] at hget
        injection hget with hinj
        subst hinj
        exact le_max_left _ _
      · rw [if_neg hx] at hget
        exact h g grp hget

theorem applyOps_nonneg (ops : List RegistryOp) :
    ∀ (r : Registry), (∀ g grp, r g = some grp → 0 ≤ grp.count) →
    ∀ g grp, applyOps r ops g = some grp → 0 ≤ grp.count := by
  induction ops with
  | nil => intro r h g grp hget; exact h g grp hget
  | cons op rest ih =>
    intro r h g grp hget
    exact ih (applyOp r op) (applyOp_preserves_nonneg r op h) g grp hget

/-- Claim C10: under every sequence of `registerInstance` calls and
unregister-closure invocations (including repeated invocations of the same
closure) starting from the empty registry, every present group keeps a
non-negative count, and the multiplier `recomputeAndNotify` would deliver to
its listeners lies in `[0.7, 1]`, equalling exactly `1` whenever the group's
count is at most `1`. -/
theorem registry_invariant (ops : List RegistryOp) (g : String) (grp : Group)
    (hget : applyOps emptyRegistry ops g = some grp) :
    0 ≤ grp.count ∧
    0.7 ≤ notifiedMultiplier grp.count ∧
    notifiedMultiplier grp.count ≤ 1 ∧
    (grp.count ≤ 1 → notifiedMultiplier grp.count = 1) := by
  refine ⟨?_, notifiedMultiplier_ge _, notifiedMultiplier_le_one _,
    fun h => notifiedMultiplier_of_le_one h⟩
  exact applyOps_nonneg ops emptyRegistry
    (fun g grp h => by simp [emptyRegistry] at h) g grp hget

/-- Witness for C10: register once, then invoke the same unregister closure
twice; the group survives with count `0`. -/
theorem registry_invariant_witness :
    0 ≤ ((0 : ℤ)) ∧
    0.7 ≤ notifiedMultiplier 0 ∧
    notifiedMultiplier 0 ≤ 1 ∧
    ((0 : ℤ) ≤ 1 → notifiedMultiplier 0 = 1) :=
  registry_invariant
    [.register "a" 7, .unregister "a" 7, .unregister "a" 7] "a" ⟨0, []⟩
    (by decide)

end LiquidGlass
